import Mathlib

/-!
Verification of the filename-grammar parser/validator, path construction,
query post-filtering and processing-input registry of the `imap-data-access`
package.  Filenames and paths are modelled as lists of characters, mirroring
the Python `str` values; fallible constructors return `Except`.
-/

set_option maxRecDepth 10000

/-- Filenames and path fragments are modelled as lists of characters,
mirroring the Python code's `str` values. -/
abbrev Str := List Char

/-- Bridge from Lean string literals to the character-list model. -/
def str (s : String) : Str := s.data

/-- Every character is an ASCII digit (embeds the regex class `\d`). -/
def allDigits (s : Str) : Bool := s.all Char.isDigit

/-- Numeric value of a digit string, as computed by Python `int(...)` on
digit-only input. -/
def natOfDigits (s : Str) : Nat := s.foldl (fun n c => n * 10 + (c.toNat - 48)) 0

deriving instance DecidableEq for Except

/-- Worker for `natToDigits`, structurally recursive on a fuel argument so
that it reduces inside the kernel; the fuel is always sufficient. -/
def natToDigitsAux : Nat → Nat → Str → Str
  | 0, _, acc => acc
  | fuel + 1, n, acc =>
    if n < 10 then Nat.digitChar n :: acc
    else natToDigitsAux fuel (n / 10) (Nat.digitChar (n % 10) :: acc)

/-- Decimal digit string of a natural number (the digits emitted by Python
decimal formatting). -/
def natToDigits (n : Nat) : Str := natToDigitsAux (n + 1) n []

/-- Embeds the Python format specifier `{r:05d}`: decimal digits left-padded
with zeros to a minimum width of five. -/
def pad5 (n : Nat) : Str :=
  List.replicate (5 - (natToDigits n).length) '0' ++ natToDigits n

/-- Is the first list an initial segment of the second (Python
`str.startswith`). -/
def prefixOfB : Str → Str → Bool
  | [], _ => true
  | _ :: _, [] => false
  | a :: as, b :: bs => a == b && prefixOfB as bs

/-- Embeds the Python substring test `needle in hay` used by the descriptor
filter of `get_file_paths`. -/
def substringOf (needle : Str) : Str → Bool
  | [] => prefixOfB needle []
  | c :: cs => prefixOfB needle (c :: cs) || substringOf needle cs

/-- Gregorian leap-year rule used by Python `datetime`. -/
def isLeapYear (y : Nat) : Bool :=
  y % 4 == 0 && (y % 100 != 0 || y % 400 == 0)

/-- Number of days of month `m` in year `y` (Python `datetime` calendar). -/
def daysInMonth (y m : Nat) : Nat :=
  if m = 2 then (if isLeapYear y then 29 else 28)
  else if m = 4 ∨ m = 6 ∨ m = 9 ∨ m = 11 then 30
  else 31

/-- Embeds `ImapFilePath.is_valid_date`, i.e. the success of
`datetime.strptime(input_date, "%Y%m%d")`, for strings of exactly eight digits
(the only shape the filename grammars can produce: the regexes bind
`start_date` and `end_date` with `\d{8}`).  CPython's `strptime` would in
addition accept a few shorter mixed-width spellings such as `"2024312"`,
which cannot reach this check from the grammars and which no claim exercises. -/
def is_valid_date (input_date : Str) : Bool :=
  input_date.length == 8 && allDigits input_date &&
    (let y := natOfDigits (input_date.take 4)
     let m := natOfDigits ((input_date.drop 4).take 2)
     let d := natOfDigits (input_date.drop 6)
     decide (1 ≤ y ∧ 1 ≤ m ∧ m ≤ 12 ∧ 1 ≤ d ∧ d ≤ daysInMonth y m))

/-- Shape test for the literal pattern `v` followed by exactly three digits
(the regex `^v\d{3}$`). -/
def versionShape : Str → Bool
  | c0 :: c1 :: c2 :: c3 :: [] => c0 == 'v' && c1.isDigit && c2.isDigit && c3.isDigit
  | _ => false

/-- Embeds `ImapFilePath.is_valid_version`: the literal `latest` or `v`
followed by exactly three digits. -/
def is_valid_version (input_version : Str) : Bool :=
  input_version == str "latest" || versionShape input_version

/-- Embeds `ScienceFilePath.is_valid_repointing`: a full match of
`repoint\d{5}`. -/
def is_valid_repointing (input_repointing : Str) : Bool :=
  input_repointing.take 7 == str "repoint" &&
    input_repointing.length == 12 && allDigits (input_repointing.drop 7)

/-- Modelled from the spec: the package `__init__` module that defines this
enumeration is not under src/.  The instrument list follows the docstring of
`ScienceFilePath.__init__` ("codice, glows, hi, hit, idex, lo, mag, swapi,
swe, ultra") and the spec's glossary. -/
def VALID_INSTRUMENTS : List Str :=
  [str "codice", str "glows", str "hi", str "hit", str "idex",
   str "lo", str "mag", str "swapi", str "swe", str "ultra"]

/-- Modelled from the spec: the package `__init__` module that defines this
enumeration is not under src/.  The spec names the processing-stage tags l0,
l1, l1a, l1b, l1c, l2, l3, l3a (glossary and docstrings; the tests exercise
l1a, l1b and l1c). -/
def VALID_DATALEVELS : List Str :=
  [str "l0", str "l1", str "l1a", str "l1b", str "l1c",
   str "l2", str "l3", str "l3a"]

/-- Modelled from the spec: the package `__init__` module that defines this
set is not under src/.  Science extensions are pkts and cdf (see the science
regex and the query error message "choose from ('pkts', 'cdf')"). -/
def VALID_FILE_EXTENSION : List Str := [str "pkts", str "cdf"]

/-- Modelled from the spec: the package `__init__` module that defines this
set is not under src/.  The ancillary validator narrows acceptance to cdf
only ("Extension should be cdf"). -/
def VALID_ANCILLARY_FILE_EXTENSION : List Str := [str "cdf"]

/-- Components extracted from a science filename by the raw positional
grammar of `ScienceFilePath.extract_filename_components`. -/
structure ScienceComponents where
  mission : Str
  instrument : Str
  data_level : Str
  descriptor : Str
  start_date : Str
  repointing : Option Nat
  version : Str
  extension : Str
deriving DecidableEq

/-- Parses the science time slot `\d{8}(-repoint\d{5})?` occupying one
underscore-separated field of the filename.  The repointing number is stored
as an integer, as the source does with `int(components["repointing"])`. -/
def parseScienceTime (t : Str) : Option (Str × Option Nat) :=
  if t.length == 8 && allDigits t then some (t, none)
  else if t.length == 21 && allDigits (t.take 8)
          && (t.drop 8).take 8 == str "-repoint" && allDigits (t.drop 16)
  then some (t.take 8, some (natOfDigits (t.drop 16)))
  else none

/-- Parses the trailing slot `v\d{3}\.<ext>` where `<ext>` must be one of
`exts` (the regex alternation), anchored at the end of the filename. -/
def parseVersionExt (exts : List Str) (s : Str) : Option (Str × Str) :=
  match s with
  | 'v' :: a :: b :: c :: '.' :: rest =>
    if a.isDigit && b.isDigit && c.isDigit && exts.contains rest
    then some (['v', a, b, c], rest) else none
  | _ => none

/-- Embeds `ScienceFilePath.extract_filename_components`.  The science regex
is a chain of underscore-separated groups none of which can match an
underscore, so matching it is equivalent to splitting the filename on
underscores and checking each of the six resulting slots: the literal
mission `imap`, three nonempty fields, the time slot and the
version-extension slot.  The anchors are modelled as exact begin/end of
string (Python's `$` would also tolerate one trailing newline, which no
claim exercises). -/
def ScienceFilePath.extract_filename_components (filename : Str) :
    Option ScienceComponents :=
  match filename.splitOn '_' with
  | [m, i, dl, d, t, ve] =>
    if m == str "imap" && !i.isEmpty && !dl.isEmpty && !d.isEmpty then
      match parseScienceTime t, parseVersionExt [str "cdf", str "pkts"] ve with
      | some (sd, rp), some (v, e) => some ⟨m, i, dl, d, sd, rp, v, e⟩
      | _, _ => none
    else none
  | _ => none

/-- One accumulated diagnostic of `ScienceFilePath.validate_filename`; each
constructor corresponds to one `error_message` fragment in the source, kept
in the source's order of checks. -/
inductive ScienceError where
  | missingAttribute
  | invalidMission (mission : Str)
  | invalidInstrument (instrument : Str)
  | invalidDataLevel (data_level : Str)
  | invalidStartDate
  | invalidVersion
  | invalidExtension
deriving DecidableEq

/-- Embeds `ScienceFilePath.validate_filename` as the ordered list of
accumulated diagnostics (the source concatenates one message fragment per
violated check into `error_message`).  The source's repointing check
`self.repointing and not isinstance(self.repointing, int)` is omitted: the
extraction always stores the repointing as `int`, so it can never fire.
The `attr is None` half of the missing-attribute check likewise can never
fire after a successful extraction and is modelled by the empty-string
test alone. -/
def ScienceFilePath.validate_filename (c : ScienceComponents) : List ScienceError :=
  (if c.mission.isEmpty || c.instrument.isEmpty || c.data_level.isEmpty
      || c.descriptor.isEmpty || c.start_date.isEmpty || c.version.isEmpty
      || c.extension.isEmpty
   then [ScienceError.missingAttribute] else []) ++
  (if c.mission ≠ str "imap" then [ScienceError.invalidMission c.mission] else []) ++
  (if c.instrument ∉ VALID_INSTRUMENTS
   then [ScienceError.invalidInstrument c.instrument] else []) ++
  (if c.data_level ∉ VALID_DATALEVELS
   then [ScienceError.invalidDataLevel c.data_level] else []) ++
  (if !is_valid_date c.start_date then [ScienceError.invalidStartDate] else []) ++
  (if !versionShape c.version then [ScienceError.invalidVersion] else []) ++
  (if c.extension ∉ VALID_FILE_EXTENSION
      ∨ (c.data_level = str "l0" ∧ c.extension ≠ str "pkts")
      ∨ (c.data_level ≠ str "l0" ∧ c.extension ≠ str "cdf")
   then [ScienceError.invalidExtension] else [])

/-- A validated science file record: the original filename together with its
extracted components (`ScienceFilePath.__init__` stores the same data as
instance attributes). -/
structure ScienceFilePath where
  filename : Str
  comps : ScienceComponents
deriving DecidableEq

/-- Failure modes of `ScienceFilePath.__init__` (both are raised as
`InvalidScienceFileError`): the raw pattern did not match, or semantic
validation accumulated a nonempty diagnostic list. -/
inductive ScienceFailure where
  | patternMismatch (filename : Str)
  | validationFailure (errors : List ScienceError)
deriving DecidableEq

/-- Embeds `ScienceFilePath.__init__`: extract the components, then validate
them, failing when either step fails. -/
def ScienceFilePath.ofFilename (filename : Str) :
    Except ScienceFailure ScienceFilePath :=
  match ScienceFilePath.extract_filename_components filename with
  | none => Except.error (ScienceFailure.patternMismatch filename)
  | some c =>
    if ScienceFilePath.validate_filename c = [] then Except.ok ⟨filename, c⟩
    else Except.error (ScienceFailure.validationFailure (ScienceFilePath.validate_filename c))

/-- The filename string built by `ScienceFilePath.generate_from_inputs`
before re-parsing: mirrors the f-string, including the `if repointing:`
truthiness test, under which a `None` and a zero repointing both leave the
time field bare. -/
def scienceGeneratedFilename (instrument data_level descriptor start_time version : Str)
    (repointing : Option Nat) : Str :=
  let extension := if data_level = str "l0" then str "pkts" else str "cdf"
  let time_field := start_time ++
    (match repointing with
     | some r => if r ≠ 0 then str "-repoint" ++ pad5 r else []
     | none => [])
  str "imap_" ++ instrument ++ str "_" ++ data_level ++ str "_" ++ descriptor
    ++ str "_" ++ time_field ++ str "_" ++ version ++ str "." ++ extension

/-- Embeds `ScienceFilePath.generate_from_inputs`: build the filename from the
field inputs and construct a `ScienceFilePath` from it. -/
def ScienceFilePath.generate_from_inputs
    (instrument data_level descriptor start_time version : Str)
    (repointing : Option Nat) : Except ScienceFailure ScienceFilePath :=
  ScienceFilePath.ofFilename
    (scienceGeneratedFilename instrument data_level descriptor start_time version repointing)

/-- Joining the configured archive root onto a relative path.  Embeds the
source's `if self.data_dir: upload_path = self.data_dir / upload_path`
together with pathlib's join semantics, under which an unset or empty root
(`Path("")`, normalised by pathlib to `.`) contributes no prefix.  The root
is modelled as a character list, empty meaning unset or empty. -/
def joinIfRoot (data_dir rel : Str) : Str :=
  if data_dir.isEmpty then rel else data_dir ++ '/' :: rel

/-- Embeds `ScienceFilePath.construct_path`:
`<data_dir>/<mission>/<instrument>/<data_level>/<YYYY>/<MM>/<filename>`,
where YYYY and MM are `start_date[:4]` and `start_date[4:6]`. -/
def ScienceFilePath.construct_path (data_dir : Str) (p : ScienceFilePath) : Str :=
  joinIfRoot data_dir
    (p.comps.mission ++ '/' :: p.comps.instrument ++ '/' :: p.comps.data_level
      ++ '/' :: p.comps.start_date.take 4
      ++ '/' :: (p.comps.start_date.drop 4).take 2 ++ '/' :: p.filename)

/-- Components extracted from an ancillary filename by the raw positional
grammar of `AncillaryFilePath.extract_filename_components`. -/
structure AncillaryComponents where
  mission : Str
  instrument : Str
  descriptor : Str
  start_date : Str
  end_date : Option Str
  version : Str
  extension : Str
deriving DecidableEq

/-- Parses the ancillary time slot `\d{8}(-\d{8})?` occupying one
underscore-separated field of the filename. -/
def parseAncillaryTime (t : Str) : Option (Str × Option Str) :=
  if t.length == 8 && allDigits t then some (t, none)
  else if t.length == 17 && allDigits (t.take 8)
          && (t.drop 8).take 1 == str "-" && allDigits (t.drop 9)
  then some (t.take 8, some (t.drop 9))
  else none

/-- Embeds `AncillaryFilePath.extract_filename_components`.  As with the
science grammar, the regex is a chain of underscore-separated groups, so it
is modelled by splitting on underscores; the extension alternation is
written `cdf|cvs|json` in the source (note the source's spelling `cvs`,
not `csv`), and that list is kept verbatim here. -/
def AncillaryFilePath.extract_filename_components (filename : Str) :
    Option AncillaryComponents :=
  match filename.splitOn '_' with
  | [m, i, d, t, ve] =>
    if m == str "imap" && !i.isEmpty && !d.isEmpty then
      match parseAncillaryTime t, parseVersionExt [str "cdf", str "cvs", str "json"] ve with
      | some (sd, ed), some (v, e) => some ⟨m, i, d, sd, ed, v, e⟩
      | _, _ => none
    else none
  | _ => none

/-- One accumulated diagnostic of `AncillaryFilePath.validate_filename`; each
constructor corresponds to one `error_message` fragment in the source, kept
in the source's order of checks (extension is checked before the dates). -/
inductive AncillaryError where
  | missingAttribute
  | invalidMission (mission : Str)
  | invalidInstrument (instrument : Str)
  | invalidExtension
  | invalidStartDate
  | invalidEndDate
deriving DecidableEq

/-- Embeds `AncillaryFilePath.validate_filename` as the ordered list of
accumulated diagnostics.  The source's missing-attribute check ranges over
mission, instrument, descriptor, version and extension (not the dates); the
`if self.end_date:` guard is modelled by the option, since an extracted end
date is always a nonempty digit string. -/
def AncillaryFilePath.validate_filename (c : AncillaryComponents) : List AncillaryError :=
  (if c.mission.isEmpty || c.instrument.isEmpty || c.descriptor.isEmpty
      || c.version.isEmpty || c.extension.isEmpty
   then [AncillaryError.missingAttribute] else []) ++
  (if c.mission ≠ str "imap" then [AncillaryError.invalidMission c.mission] else []) ++
  (if c.instrument ∉ VALID_INSTRUMENTS
   then [AncillaryError.invalidInstrument c.instrument] else []) ++
  (if c.extension ∉ VALID_ANCILLARY_FILE_EXTENSION
   then [AncillaryError.invalidExtension] else []) ++
  (if !is_valid_date c.start_date then [AncillaryError.invalidStartDate] else []) ++
  (match c.end_date with
   | some e => if !is_valid_date e then [AncillaryError.invalidEndDate] else []
   | none => [])

/-- A validated ancillary file record: the original filename together with
its extracted components. -/
structure AncillaryFilePath where
  filename : Str
  comps : AncillaryComponents
deriving DecidableEq

/-- Failure modes of `AncillaryFilePath.__init__` (both are raised as
`InvalidAncillaryFileError`). -/
inductive AncillaryFailure where
  | patternMismatch (filename : Str)
  | validationFailure (errors : List AncillaryError)
deriving DecidableEq

/-- Embeds `AncillaryFilePath.__init__`: extract the components, then
validate them, failing when either step fails. -/
def AncillaryFilePath.ofFilename (filename : Str) :
    Except AncillaryFailure AncillaryFilePath :=
  match AncillaryFilePath.extract_filename_components filename with
  | none => Except.error (AncillaryFailure.patternMismatch filename)
  | some c =>
    if AncillaryFilePath.validate_filename c = [] then Except.ok ⟨filename, c⟩
    else Except.error (AncillaryFailure.validationFailure (AncillaryFilePath.validate_filename c))

/-- The filename string built by `AncillaryFilePath.generate_from_inputs`
before re-parsing; the `if end_time:` truthiness test treats both `None` and
the empty string as absent. -/
def ancillaryGeneratedFilename (instrument descriptor version extension start_time : Str)
    (end_time : Option Str) : Str :=
  match end_time with
  | some e =>
    if !e.isEmpty then
      str "imap_" ++ instrument ++ str "_" ++ descriptor ++ str "_" ++ start_time
        ++ str "-" ++ e ++ str "_" ++ version ++ str "." ++ extension
    else
      str "imap_" ++ instrument ++ str "_" ++ descriptor ++ str "_" ++ start_time
        ++ str "_" ++ version ++ str "." ++ extension
  | none =>
    str "imap_" ++ instrument ++ str "_" ++ descriptor ++ str "_" ++ start_time
      ++ str "_" ++ version ++ str "." ++ extension

/-- Embeds `AncillaryFilePath.generate_from_inputs`. -/
def AncillaryFilePath.generate_from_inputs
    (instrument descriptor version extension start_time : Str)
    (end_time : Option Str) : Except AncillaryFailure AncillaryFilePath :=
  AncillaryFilePath.ofFilename
    (ancillaryGeneratedFilename instrument descriptor version extension start_time end_time)

/-- Embeds `AncillaryFilePath.construct_path`:
`<data_dir>/<mission>/ancillary/<instrument>/<filename>`. -/
def AncillaryFilePath.construct_path (data_dir : Str) (p : AncillaryFilePath) : Str :=
  joinIfRoot data_dir
    (p.comps.mission ++ '/' :: str "ancillary" ++ '/' :: p.comps.instrument
      ++ '/' :: p.filename)

/-- Splits a filename at its last dot: `some (pre, post)` when
`name = pre ++ '.' :: post` with no dot in `post` (the index found by
Python `name.rfind('.')`). -/
def splitLastDot : Str → Option (Str × Str)
  | [] => none
  | c :: rest =>
    match splitLastDot rest with
    | some (pre, post) => some (c :: pre, post)
    | none => if c = '.' then some ([], rest) else none

/-- Embeds pathlib's `PurePath.suffix`: the last dotted suffix of the name,
empty unless the dot has at least one character on each side (the source
condition `0 < i < len(name) - 1` on `i = name.rfind('.')`). -/
def pySuffix (name : Str) : Str :=
  match splitLastDot name with
  | some (pre, post) => if !pre.isEmpty && !post.isEmpty then '.' :: post else []
  | none => []

/-- Leading dots removed (Python `name.lstrip('.')`). -/
def lstripDots : Str → Str
  | '.' :: rest => lstripDots rest
  | s => s

/-- True when the final character is a dot (Python `name.endswith('.')`). -/
def endsWithDot (s : Str) : Bool :=
  match s.getLast? with
  | some c => c == '.'
  | none => false

/-- Embeds pathlib's `PurePath.suffixes`: empty for names ending in a dot;
otherwise every dot-separated piece after the first of `name.lstrip('.')`,
each with its leading dot restored. -/
def pySuffixes (name : Str) : List Str :=
  if endsWithDot name then []
  else ((lstripDots name).splitOn '.').tail.map (fun s => '.' :: s)

/-- Embeds `_SPICE_DIR_MAPPING`, the fixed extension-to-subdirectory table,
in source (insertion) order. -/
def SPICE_DIR_MAPPING : List (Str × Str) :=
  [(str ".bc", str "ck"), (str ".bpc", str "pck"), (str ".bsp", str "spk"),
   (str ".mk", str "mk"), (str ".repoint.csv", str "repoint"),
   (str ".sff", str "activities"), (str ".spin.csv", str "spin"),
   (str ".tf", str "fk"), (str ".tls", str "lsk"), (str ".tm", str "mk"),
   (str ".tpc", str "pck"), (str ".tsc", str "sclk")]

/-- Embeds the extension-key computation of `SPICEFilePath.__init__`: when
the final suffix is `.csv` the key is the concatenation of all dotted
suffixes (Python `"".join(self.filename.suffixes)`), otherwise it is the
final suffix alone. -/
def spiceFileExtension (name : Str) : Str :=
  if pySuffix name = str ".csv" then (pySuffixes name).flatten
  else pySuffix name

/-- The failure of `SPICEFilePath.__init__` (`InvalidSPICEFileError`): the
message lists the valid extensions, i.e. the keys of the table. -/
inductive SpiceFailure where
  | invalidSpiceFile (validKeys : List Str)
deriving DecidableEq

/-- A validated SPICE file record: the filename and its extension key
(`SPICEFilePath.__init__` stores `filename` and `file_extension`). -/
structure SPICEFilePath where
  filename : Str
  file_extension : Str
deriving DecidableEq

/-- Embeds `SPICEFilePath.__init__`: compute the extension key and require
it to be a key of the table. -/
def SPICEFilePath.ofFilename (filename : Str) : Except SpiceFailure SPICEFilePath :=
  if (SPICE_DIR_MAPPING.map Prod.fst).contains (spiceFileExtension filename)
  then Except.ok ⟨filename, spiceFileExtension filename⟩
  else Except.error (SpiceFailure.invalidSpiceFile (SPICE_DIR_MAPPING.map Prod.fst))

/-- Embeds `SPICEFilePath.construct_path`:
`<data_dir>/spice/<subdir>/<filename>` with the subdirectory looked up from
the table.  The constructor guarantees the key is present, so the `none`
arm is unreachable; the source prepends `config["DATA_DIR"]` with pathlib's
`/`, under which an empty root contributes no prefix (see `joinIfRoot`). -/
def SPICEFilePath.construct_path (data_dir : Str) (p : SPICEFilePath) : Str :=
  let subdir :=
    match SPICE_DIR_MAPPING.lookup p.file_extension with
    | some s => s
    | none => []
  joinIfRoot data_dir (str "spice" ++ '/' :: subdir ++ '/' :: p.filename)

/-- The three typed results of `generate_imap_file_path`. -/
inductive ImapFilePathObj where
  | spice (p : SPICEFilePath)
  | science (p : ScienceFilePath)
  | ancillary (p : AncillaryFilePath)
deriving DecidableEq

/-- The single top-level classification error of `generate_imap_file_path`:
the `ValueError` message names the filename and states that it matches none
of the Spice, Science or Ancillary formats, and `raise ... from e` chains
the underlying ancillary failure. -/
structure ClassificationError where
  filename : Str
  cause : AncillaryFailure
deriving DecidableEq

/-- Embeds `generate_imap_file_path`: try SPICE, then Science, then
Ancillary, returning the first success; when all three fail, fail with the
single top-level error. -/
def generate_imap_file_path (filename : Str) :
    Except ClassificationError ImapFilePathObj :=
  match SPICEFilePath.ofFilename filename with
  | Except.ok p => Except.ok (ImapFilePathObj.spice p)
  | Except.error _ =>
    match ScienceFilePath.ofFilename filename with
    | Except.ok p => Except.ok (ImapFilePathObj.science p)
    | Except.error _ =>
      match AncillaryFilePath.ofFilename filename with
      | Except.ok p => Except.ok (ImapFilePathObj.ancillary p)
      | Except.error e => Except.error ⟨filename, e⟩

/-- Dispatch of `construct_path` over the three record families (each record
object carries its own `construct_path`). -/
def ImapFilePathObj.construct_path (data_dir : Str) : ImapFilePathObj → Str
  | ImapFilePathObj.spice p => SPICEFilePath.construct_path data_dir p
  | ImapFilePathObj.science p => ScienceFilePath.construct_path data_dir p
  | ImapFilePathObj.ancillary p => AncillaryFilePath.construct_path data_dir p

/-- Option-valued traversal of a list, `some` exactly when every element
maps to `some` (the effect of Python's fail-fast loops and comprehensions
over fallible steps). -/
def traverseOpt (f : A → Option B) : List A → Option (List B)
  | [] => some []
  | a :: l =>
    match f a, traverseOpt f l with
    | some b, some bs => some (b :: bs)
    | _, _ => none

/-- One record mapping of the decoded JSON query response; only the version
field is inspected by the client-side post-filter, the rest of the mapping
is carried as uninterpreted payload. -/
structure QueryRecord where
  version : Str
  payload : Str
deriving DecidableEq

/-- The keyword arguments of `io.query`, each `None` when not passed. -/
structure QueryFilters where
  instrument : Option Str
  data_level : Option Str
  descriptor : Option Str
  start_date : Option Str
  end_date : Option Str
  repointing : Option Str
  version : Option Str
  extension : Option Str
deriving DecidableEq

/-- One key-value pair of the outbound query parameters, present exactly
when the filter was passed (the `locals()` comprehension keeps only
non-None arguments). -/
def optEntry (k : Str) (v : Option Str) : List (Str × Str) :=
  match v with
  | some x => [(k, x)]
  | none => []

/-- The outbound query parameters in Python keyword order, before the
`latest` adjustment. -/
def queryParamsBase (q : QueryFilters) : List (Str × Str) :=
  optEntry (str "instrument") q.instrument ++ optEntry (str "data_level") q.data_level
    ++ optEntry (str "descriptor") q.descriptor ++ optEntry (str "start_date") q.start_date
    ++ optEntry (str "end_date") q.end_date ++ optEntry (str "repointing") q.repointing
    ++ optEntry (str "version") q.version ++ optEntry (str "extension") q.extension

/-- The outbound query parameters actually sent: when the version filter is
the literal `latest`, the version key is deleted
(`del query_params["version"]`). -/
def outboundParams (q : QueryFilters) : List (Str × Str) :=
  if q.version = some (str "latest")
  then (queryParamsBase q).filter (fun kv => !(kv.fst == str "version"))
  else queryParamsBase q

/-- The `ValueError`s of `io.query`, one constructor per raise site, in
source order; `malformedRecord` models the uncaught `ValueError` that
`int(...)` would raise on a response record whose version field has no
digits in positions 1 to 3. -/
inductive QueryError where
  | noOtherParamWithLatest
  | noParams
  | invalidInstrument
  | invalidDataLevel
  | invalidStartDate
  | invalidEndDate
  | invalidVersion
  | invalidRepointing
  | invalidExtension
  | malformedRecord
deriving DecidableEq

/-- The `int(record["version"][1:4])` computation of the latest post-filter;
`none` models the `ValueError` Python `int` raises on non-digit input (the
signs and whitespace `int` would tolerate cannot occur in a `vNNN`
version). -/
def versionNumOf (v : Str) : Option Nat :=
  let s := (v.drop 1).take 3
  if !s.isEmpty && allDigits s then some (natOfDigits s) else none

/-- The maximum version number present among the response records (zero when
none parse): the reference point of the `latest` post-filter. -/
def maxVersionNum (items : List QueryRecord) : Nat :=
  (items.filterMap (fun r => versionNumOf r.version)).foldl Nat.max 0

/-- Embeds the pure data flow of `io.query`: parameter assembly, the
`latest` adjustment and its precondition, the per-field validations in
source order, and the client-side post-filter.  The HTTP transport is
abstracted: `response` stands for the decoded JSON list the server returned
for the outbound parameters. -/
def query (q : QueryFilters) (response : List QueryRecord) :
    Except QueryError (List QueryRecord) :=
  if q.version = some (str "latest") ∧ outboundParams q = [] then
    Except.error QueryError.noOtherParamWithLatest
  else if outboundParams q = [] then Except.error QueryError.noParams
  else if q.instrument.any (fun i => !VALID_INSTRUMENTS.contains i) then
    Except.error QueryError.invalidInstrument
  else if q.data_level.any (fun dl => !VALID_DATALEVELS.contains dl) then
    Except.error QueryError.invalidDataLevel
  else if q.start_date.any (fun d => !is_valid_date d) then
    Except.error QueryError.invalidStartDate
  else if q.end_date.any (fun d => !is_valid_date d) then
    Except.error QueryError.invalidEndDate
  else if q.version.any (fun v => !is_valid_version v) then
    Except.error QueryError.invalidVersion
  else if q.repointing.any (fun r => !is_valid_repointing r) then
    Except.error QueryError.invalidRepointing
  else if q.extension.any (fun e => !VALID_FILE_EXTENSION.contains e) then
    Except.error QueryError.invalidExtension
  else if q.version = some (str "latest") ∧ response ≠ [] then
    match traverseOpt (fun r => versionNumOf r.version) response with
    | some nums =>
      let max_version := nums.foldl Nat.max 0
      Except.ok (response.filter (fun r => versionNumOf r.version == some max_version))
    | none => Except.error QueryError.malformedRecord
  else Except.ok response

/-- Modelled from the spec: the `processing_input` module is not under src/
(only its tests are).  The family tags of `ProcessingInputType`
(`SCIENCE_FILE`, `ANCILLARY_FILE`, `SPICE_FILE`). -/
inductive ProcessingInputType where
  | SCIENCE_FILE
  | ANCILLARY_FILE
  | SPICE_FILE
deriving DecidableEq

/-- Modelled from the spec: a `ProcessingInput` groups the ordered filenames
of one dependency, their validated file records (`imap_file_paths`), the
shared `source` (instrument), the shared `descriptor`, and the `data_type`
tag — the science data level, or the literal `ancillary`/`spice`. -/
structure ProcessingInput where
  input_type : ProcessingInputType
  filename_list : List Str
  imap_file_paths : List ImapFilePathObj
  source : Str
  descriptor : Str
  data_type : Str
deriving DecidableEq

/-- Modelled from the spec: the family projection used by `ScienceInput`; a
classified object contributes its science components, anything else fails. -/
def scienceCompsOf : ImapFilePathObj → Option ScienceComponents
  | ImapFilePathObj.science p => some p.comps
  | _ => none

/-- Modelled from the spec: `ScienceInput(*filenames)` classifies every
filename (per the ordered-attempt classifier), requires each to be a
science file, and enforces the shared source/descriptor/data-level
invariant ("inputs must come from the same source"); `none` models the
construction-time failure. -/
def ScienceInput (filenames : List Str) : Option ProcessingInput :=
  (traverseOpt (fun f => (generate_imap_file_path f).toOption) filenames).bind (fun objs =>
    (traverseOpt scienceCompsOf objs).bind (fun comps =>
      match comps with
      | [] => none
      | c0 :: rest =>
        if rest.all (fun c => c.instrument == c0.instrument
              && c.descriptor == c0.descriptor && c.data_level == c0.data_level)
        then some ⟨ProcessingInputType.SCIENCE_FILE, filenames, objs,
                   c0.instrument, c0.descriptor, c0.data_level⟩
        else none))

/-- Modelled from the spec: the family projection used by `AncillaryInput`. -/
def ancillaryCompsOf : ImapFilePathObj → Option AncillaryComponents
  | ImapFilePathObj.ancillary p => some p.comps
  | _ => none

/-- Modelled from the spec: `AncillaryInput(*filenames)` classifies every
filename, requires each to be an ancillary file, and enforces the shared
source/descriptor invariant; the `data_type` tag is the literal
`ancillary`. -/
def AncillaryInput (filenames : List Str) : Option ProcessingInput :=
  (traverseOpt (fun f => (generate_imap_file_path f).toOption) filenames).bind (fun objs =>
    (traverseOpt ancillaryCompsOf objs).bind (fun comps =>
      match comps with
      | [] => none
      | c0 :: rest =>
        if rest.all (fun c => c.instrument == c0.instrument
              && c.descriptor == c0.descriptor)
        then some ⟨ProcessingInputType.ANCILLARY_FILE, filenames, objs,
                   c0.instrument, c0.descriptor, str "ancillary"⟩
        else none))

/-- Modelled from the spec: the family test used by `SPICEInput`. -/
def isSpiceObj : ImapFilePathObj → Bool
  | ImapFilePathObj.spice _ => true
  | _ => false

/-- Modelled from the spec: `SPICEInput(*filenames)` classifies every
filename and requires each to be a SPICE file; its `source` and `data_type`
are the literal `spice`, and the spec gives SPICE inputs no descriptor
(modelled as the empty string). -/
def SPICEInput (filenames : List Str) : Option ProcessingInput :=
  (traverseOpt (fun f => (generate_imap_file_path f).toOption) filenames).bind (fun objs =>
    if objs.all isSpiceObj && !objs.isEmpty
    then some ⟨ProcessingInputType.SPICE_FILE, filenames, objs,
               str "spice", [], str "spice"⟩
    else none)

/-- Modelled from the spec: an ordered registry of processing inputs,
mutated only by append. -/
structure ProcessingInputCollection where
  processing_input : List ProcessingInput
deriving DecidableEq

/-- Modelled from the spec: `serialize` emits, in insertion order, one
(data_type tag, ordered filename list) pair per entry. -/
def ProcessingInputCollection.serialize (c : ProcessingInputCollection) :
    List (Str × List Str) :=
  c.processing_input.map (fun i => (i.data_type, i.filename_list))

/-- Modelled from the spec: the deserialization dispatch on the data_type
tag — `ancillary` and `spice` select their constructors, any other tag is a
science data level. -/
def deserializeEntry (tag : Str) (filenames : List Str) : Option ProcessingInput :=
  if tag = str "ancillary" then AncillaryInput filenames
  else if tag = str "spice" then SPICEInput filenames
  else ScienceInput filenames

/-- Modelled from the spec: `deserialize` reconstructs each encoded entry by
tag dispatch (re-running full classification and validation) and appends the
reconstructed entries to the existing collection rather than replacing it. -/
def ProcessingInputCollection.deserialize (c : ProcessingInputCollection)
    (payload : List (Str × List Str)) : Option ProcessingInputCollection :=
  (traverseOpt (fun e => deserializeEntry e.fst e.snd) payload).map
    (fun new => ⟨c.processing_input ++ new⟩)

/-- Modelled from the spec: the entry filter of `get_file_paths` — source
equality when a source is given, descriptor substring containment when a
descriptor is given; an omitted filter matches every entry. -/
def entryMatches (source descriptor : Option Str) (i : ProcessingInput) : Bool :=
  (match source with
   | some s => i.source == s
   | none => true) &&
  (match descriptor with
   | some ds => substringOf ds i.descriptor
   | none => true)

/-- Modelled from the spec: the entry loop of `get_file_paths` — for each
entry in insertion order, when the entry passes the source and descriptor
filters, extend the result with the constructed paths of its member files. -/
def getFilePathsList (data_dir : Str) (source descriptor : Option Str) :
    List ProcessingInput → List Str
  | [] => []
  | i :: rest =>
    (if entryMatches source descriptor i
     then i.imap_file_paths.map (ImapFilePathObj.construct_path data_dir)
     else []) ++ getFilePathsList data_dir source descriptor rest

/-- Modelled from the spec: `get_file_paths(source, descriptor)` returns, in
insertion order, the constructed paths of every member file of every entry
whose source equals the given source (when provided) and whose descriptor
contains the given descriptor as a substring (when provided); an omitted
filter matches every entry. -/
def ProcessingInputCollection.get_file_paths (data_dir : Str)
    (c : ProcessingInputCollection) (source descriptor : Option Str) : List Str :=
  getFilePathsList data_dir source descriptor c.processing_input

/-- A processing input built by one of the three constructors from its own
filename list — the only way instances arise. -/
def InputWF (i : ProcessingInput) : Prop :=
  ScienceInput i.filename_list = some i ∨ AncillaryInput i.filename_list = some i
    ∨ SPICEInput i.filename_list = some i

instance (i : ProcessingInput) : Decidable (InputWF i) := by
  unfold InputWF
  infer_instance
theorem splitOn_append_cons (xs as : Str) (h : '_' ∉ xs) :
    (xs ++ '_' :: as).splitOn '_' = xs :: as.splitOn '_' := by
  simp only [List.splitOn]
  refine List.splitOnP_first _ _ ?_ '_' (by simp) as
  intro x hx
  simp only [beq_iff_eq]
  intro hh
  subst hh
  exact h hx

theorem splitOn_single (xs : Str) (h : '_' ∉ xs) : xs.splitOn '_' = [xs] := by
  simp only [List.splitOn]
  refine List.splitOnP_eq_single _ _ ?_
  intro x hx
  simp only [beq_iff_eq]
  intro hh
  subst hh
  exact h hx

theorem digitChar_isDigit (d : Nat) (h : d < 10) : (Nat.digitChar d).isDigit = true := by
  interval_cases d <;> decide

theorem digitChar_val (d : Nat) (h : d < 10) : (Nat.digitChar d).toNat - 48 = d := by
  interval_cases d <;> decide

theorem isDigit_ne_underscore (c : Char) (h : c.isDigit = true) : c ≠ '_' := by
  intro hc
  subst hc
  exact absurd h (by decide)

theorem natOfDigits_cons_zero (t : Str) : natOfDigits ('0' :: t) = natOfDigits t := by
  simp [natOfDigits]

theorem natOfDigits_append_singleton (a : Str) (c : Char) :
    natOfDigits (a ++ [c]) = natOfDigits a * 10 + (c.toNat - 48) := by
  simp [natOfDigits, List.foldl_append]

theorem natOfDigits_replicate_zero (k : Nat) (s : Str) :
    natOfDigits (List.replicate k '0' ++ s) = natOfDigits s := by
  induction k with
  | zero => simp
  | succ n ih =>
    rw [List.replicate_succ, List.cons_append, natOfDigits_cons_zero, ih]

theorem natToDigitsAux_acc (fuel : Nat) : ∀ (n : Nat) (acc : Str),
    natToDigitsAux fuel n acc = natToDigitsAux fuel n [] ++ acc := by
  induction fuel with
  | zero => intro n acc; simp [natToDigitsAux]
  | succ f ih =>
    intro n acc
    by_cases h : n < 10
    · simp [natToDigitsAux, h]
    · simp only [natToDigitsAux, if_neg h]
      rw [ih (n / 10) (Nat.digitChar (n % 10) :: acc), ih (n / 10) [Nat.digitChar (n % 10)]]
      simp

theorem natToDigitsAux_spec (fuel : Nat) : ∀ n, n < fuel →
    natOfDigits (natToDigitsAux fuel n []) = n ∧
    allDigits (natToDigitsAux fuel n []) = true := by
  induction fuel with
  | zero => intro n h; omega
  | succ f ih =>
    intro n h
    by_cases h10 : n < 10
    · refine ⟨?_, ?_⟩
      · simp [natToDigitsAux, h10, natOfDigits, digitChar_val n h10]
      · simp [natToDigitsAux, h10, allDigits, digitChar_isDigit n h10]
    · have hdiv : n / 10 < f := by
        have : n / 10 < n := Nat.div_lt_self (by omega) (by omega)
        omega
      obtain ⟨ihv, ihd⟩ := ih (n / 10) hdiv
      have hrw : natToDigitsAux (f + 1) n [] =
          natToDigitsAux f (n / 10) [] ++ [Nat.digitChar (n % 10)] := by
        simp only [natToDigitsAux, if_neg h10]
        exact natToDigitsAux_acc f (n / 10) [Nat.digitChar (n % 10)]
      refine ⟨?_, ?_⟩
      · rw [hrw, natOfDigits_append_singleton, ihv,
            digitChar_val (n % 10) (Nat.mod_lt n (by omega))]
        omega
      · rw [hrw]
        simp only [allDigits, List.all_append] at ihd ⊢
        simp [ihd, digitChar_isDigit (n % 10) (Nat.mod_lt n (by omega))]

theorem natToDigitsAux_length (fuel : Nat) : ∀ n k, n < fuel → n < 10 ^ k → 1 ≤ k →
    (natToDigitsAux fuel n []).length ≤ k := by
  induction fuel with
  | zero => intro n k h; omega
  | succ f ih =>
    intro n k h hk h1
    by_cases h10 : n < 10
    · simp [natToDigitsAux, h10]
      omega
    · have hdiv : n / 10 < f := by
        have : n / 10 < n := Nat.div_lt_self (by omega) (by omega)
        omega
      have hk2 : 2 ≤ k := by
        by_contra hc
        have : k = 1 := by omega
        subst this
        simp at hk
        omega
      have hkd : n / 10 < 10 ^ (k - 1) := by
        rw [Nat.div_lt_iff_lt_mul (by omega)]
        have : 10 ^ (k - 1) * 10 = 10 ^ k := by
          rw [← Nat.pow_succ]
          congr 1
          omega
        omega
      have := ih (n / 10) (k - 1) hdiv hkd (by omega)
      have hrw : natToDigitsAux (f + 1) n [] =
          natToDigitsAux f (n / 10) [] ++ [Nat.digitChar (n % 10)] := by
        simp only [natToDigitsAux, if_neg h10]
        exact natToDigitsAux_acc f (n / 10) [Nat.digitChar (n % 10)]
      rw [hrw]
      simp only [List.length_append, List.length_cons, List.length_nil]
      omega

theorem pad5_spec (n : Nat) (h : n < 100000) :
    (pad5 n).length = 5 ∧ allDigits (pad5 n) = true ∧ natOfDigits (pad5 n) = n := by
  have hlen : (natToDigits n).length ≤ 5 :=
    natToDigitsAux_length (n + 1) n 5 (by omega) (by norm_num; omega) (by omega)
  obtain ⟨hv, hd⟩ := natToDigitsAux_spec (n + 1) n (by omega)
  refine ⟨?_, ?_, ?_⟩
  · simp only [pad5, List.length_append, List.length_replicate]
    omega
  · simp only [pad5, allDigits, List.all_append, Bool.and_eq_true]
    constructor
    · simp only [List.all_eq_true]
      intro c hc
      rw [List.eq_of_mem_replicate hc]
      decide
    · exact hd
  · simp only [pad5, natOfDigits_replicate_zero]
    exact hv

theorem prefixOfB_iff (n : Str) : ∀ h : Str, prefixOfB n h = true ↔ ∃ t, h = n ++ t := by
  induction n with
  | nil =>
    intro h
    simp [prefixOfB]
  | cons a as ih =>
    intro h
    cases h with
    | nil =>
      simp [prefixOfB]
    | cons b bs =>
      simp only [prefixOfB, Bool.and_eq_true, beq_iff_eq, ih bs, List.cons_append,
        List.cons.injEq]
      constructor
      · rintro ⟨rfl, t, rfl⟩
        exact ⟨t, rfl, rfl⟩
      · rintro ⟨t, rfl, rfl⟩
        exact ⟨rfl, t, rfl⟩

theorem substringOf_iff (n : Str) : ∀ h : Str,
    substringOf n h = true ↔ ∃ pre post, h = pre ++ n ++ post := by
  intro h
  induction h with
  | nil =>
    simp only [substringOf, prefixOfB_iff]
    constructor
    · rintro ⟨t, ht⟩
      exact ⟨[], t, ht⟩
    · rintro ⟨pre, post, hp⟩
      have h0 : pre = [] ∧ n = [] ∧ post = [] := by
        have h1 := hp.symm
        simp only [List.append_eq_nil] at h1
        tauto
      obtain ⟨-, rfl, -⟩ := h0
      exact ⟨[], by simp⟩
  | cons c cs ih =>
    simp only [substringOf, Bool.or_eq_true, prefixOfB_iff, ih]
    constructor
    · rintro (⟨t, ht⟩ | ⟨pre, post, hp⟩)
      · exact ⟨[], t, by simpa using ht⟩
      · exact ⟨c :: pre, post, by simp [hp]⟩
    · rintro ⟨pre, post, hp⟩
      cases pre with
      | nil =>
        exact Or.inl ⟨post, by simpa using hp⟩
      | cons a pre =>
        simp only [List.cons_append, List.cons.injEq] at hp
        exact Or.inr ⟨pre, post, hp.2⟩

theorem le_foldl_max (l : List Nat) : ∀ (a : Nat),
    a ≤ l.foldl Nat.max a ∧ ∀ x ∈ l, x ≤ l.foldl Nat.max a := by
  induction l with
  | nil => intro a; simp
  | cons b t ih =>
    intro a
    obtain ⟨h1, h2⟩ := ih (Nat.max a b)
    refine ⟨?_, ?_⟩
    · simp only [List.foldl_cons]
      exact le_trans (Nat.le_max_left a b) h1
    · intro x hx
      rcases List.mem_cons.mp hx with rfl | hx
      · simp only [List.foldl_cons]
        exact le_trans (Nat.le_max_right a x) h1
      · exact h2 x hx

theorem foldl_max_mem (l : List Nat) : ∀ (a : Nat),
    l.foldl Nat.max a = a ∨ l.foldl Nat.max a ∈ l := by
  induction l with
  | nil => intro a; simp
  | cons b t ih =>
    intro a
    rcases ih (Nat.max a b) with h | h
    · simp only [List.foldl_cons, h]
      rcases Nat.le_total a b with hm | hm
      · exact Or.inr (by simp [Nat.max_eq_right hm])
      · exact Or.inl (Nat.max_eq_left hm)
    · exact Or.inr (List.mem_cons_of_mem _ h)

theorem traverseOpt_eq_some {A B : Type} (f : A → Option B) :
    ∀ (l : List A) (bs : List B), traverseOpt f l = some bs →
      bs = l.filterMap f ∧ ∀ a ∈ l, (f a).isSome := by
  intro l
  induction l with
  | nil =>
    intro bs h
    simp [traverseOpt] at h
    simp [← h]
  | cons a t ih =>
    intro bs h
    simp only [traverseOpt] at h
    cases hfa : f a with
    | none => rw [hfa] at h; simp at h
    | some b =>
      rw [hfa] at h
      cases ht : traverseOpt f t with
      | none => rw [ht] at h; simp at h
      | some bt =>
        rw [ht] at h
        simp only [Option.some.injEq] at h
        obtain ⟨hbt, hall⟩ := ih bt ht
        subst h
        refine ⟨by simp [List.filterMap_cons, hfa, hbt], ?_⟩
        intro x hx
        rcases List.mem_cons.mp hx with rfl | hx
        · simp [hfa]
        · exact hall x hx

theorem traverseOpt_map_some {A B : Type} (f : A → Option B) (g : B → A)
    (l : List B) (hl : ∀ b ∈ l, f (g b) = some b) :
    traverseOpt f (l.map g) = some l := by
  induction l with
  | nil => simp [traverseOpt]
  | cons b t ih =>
    simp only [List.map_cons, traverseOpt]
    rw [hl b (by simp), ih (fun x hx => hl x (List.mem_cons_of_mem _ hx))]

theorem isEmpty_false_of_ne_nil {l : Str} (h : l ≠ []) : l.isEmpty = false := by
  cases l with
  | nil => exact absurd rfl h
  | cons a t => rfl

theorem allDigits_no_underscore (s : Str) (h : allDigits s = true) : '_' ∉ s := by
  intro hc
  simp only [allDigits, List.all_eq_true] at h
  exact isDigit_ne_underscore _ (h _ hc) rfl

theorem is_valid_date_shape (s : Str) (h : is_valid_date s = true) :
    s.length = 8 ∧ allDigits s = true := by
  simp only [is_valid_date, Bool.and_eq_true, beq_iff_eq] at h
  exact ⟨h.1.1, h.1.2⟩

theorem versionShape_elim (v : Str) (h : versionShape v = true) :
    ∃ a b c, v = ['v', a, b, c] ∧ a.isDigit = true ∧ b.isDigit = true ∧ c.isDigit = true := by
  cases v with
  | nil => simp [versionShape] at h
  | cons c0 t0 =>
    cases t0 with
    | nil => simp [versionShape] at h
    | cons c1 t1 =>
      cases t1 with
      | nil => simp [versionShape] at h
      | cons c2 t2 =>
        cases t2 with
        | nil => simp [versionShape] at h
        | cons c3 t3 =>
          cases t3 with
          | cons c4 t4 => simp [versionShape] at h
          | nil =>
            simp only [versionShape, Bool.and_eq_true, beq_iff_eq] at h
            exact ⟨c1, c2, c3, by simp [h.1.1.1, h.1.1.2, h.1.2, h.2]⟩

theorem VALID_INSTRUMENTS_wf : ∀ x ∈ VALID_INSTRUMENTS, x ≠ [] ∧ '_' ∉ x := by decide

theorem VALID_DATALEVELS_wf :
    ∀ x ∈ VALID_DATALEVELS,
      x ≠ [] ∧ '_' ∉ x ∧ x ≠ str "ancillary" ∧ x ≠ str "spice" := by decide

theorem version_no_underscore (a b c : Char) (ha : a.isDigit = true) (hb : b.isDigit = true)
    (hc : c.isDigit = true) : '_' ∉ (['v', a, b, c] : Str) := by
  intro hm
  simp only [List.mem_cons, List.not_mem_nil, or_false] at hm
  rcases hm with h | h | h | h
  · exact absurd h (by decide)
  · exact isDigit_ne_underscore a ha h.symm
  · exact isDigit_ne_underscore b hb h.symm
  · exact isDigit_ne_underscore c hc h.symm

theorem science_extract_generated
    (instrument data_level descriptor start_time version : Str) (repointing : Option Nat)
    (hi : instrument ≠ [] ∧ '_' ∉ instrument)
    (hdl : data_level ≠ [] ∧ '_' ∉ data_level)
    (hd : descriptor ≠ [] ∧ '_' ∉ descriptor)
    (hlen : start_time.length = 8) (hdig : allDigits start_time = true)
    (hv : versionShape version = true)
    (hr : ∀ r, repointing = some r → 0 < r ∧ r < 100000) :
    ScienceFilePath.extract_filename_components
        (scienceGeneratedFilename instrument data_level descriptor start_time version repointing)
      = some ⟨str "imap", instrument, data_level, descriptor, start_time, repointing, version,
              if data_level = str "l0" then str "pkts" else str "cdf"⟩ := by
  obtain ⟨a, b, c, hveq, ha, hb, hc⟩ := versionShape_elim version hv
  have hvu : '_' ∉ version := hveq ▸ version_no_underscore a b c ha hb hc
  have hextu : '_' ∉ (if data_level = str "l0" then str "pkts" else str "cdf") := by
    by_cases hl : data_level = str "l0" <;> simp [hl] <;> try decide
  have hveu : '_' ∉ version ++ '.' ::
      (if data_level = str "l0" then str "pkts" else str "cdf") := by
    intro hm
    rcases List.mem_append.mp hm with h | h
    · exact hvu h
    · rcases List.mem_cons.mp h with h | h
      · exact absurd h (by decide)
      · exact hextu h
  have hpve : parseVersionExt [str "cdf", str "pkts"]
      (version ++ '.' :: (if data_level = str "l0" then str "pkts" else str "cdf"))
      = some (version, if data_level = str "l0" then str "pkts" else str "cdf") := by
    subst hveq
    simp only [List.cons_append, List.nil_append, parseVersionExt, ha, hb, hc]
    by_cases hl : data_level = str "l0" <;> simp [hl] <;> decide
  cases repointing with
  | none =>
    have htfu : '_' ∉ start_time := allDigits_no_underscore _ hdig
    have hfn : scienceGeneratedFilename instrument data_level descriptor start_time version none
        = str "imap" ++ '_' :: (instrument ++ '_' :: (data_level ++ '_' :: (descriptor ++ '_' ::
            (start_time ++ '_' :: (version ++ '.' ::
              (if data_level = str "l0" then str "pkts" else str "cdf")))))) := by
      simp [scienceGeneratedFilename, str, List.append_assoc]
    have htime : parseScienceTime start_time = some (start_time, none) := by
      simp [parseScienceTime, hlen, hdig]
    rw [hfn]
    simp only [ScienceFilePath.extract_filename_components]
    rw [splitOn_append_cons _ _ (by decide), splitOn_append_cons _ _ hi.2,
        splitOn_append_cons _ _ hdl.2, splitOn_append_cons _ _ hd.2,
        splitOn_append_cons _ _ htfu, splitOn_single _ hveu]
    simp [htime, hpve, hi.1, hdl.1, hd.1]
  | some r =>
    obtain ⟨hr1, hr2⟩ := hr r rfl
    obtain ⟨hp5len, hp5dig, hp5val⟩ := pad5_spec r hr2
    have htfu : '_' ∉ start_time ++ (str "-repoint" ++ pad5 r) := by
      intro hm
      rcases List.mem_append.mp hm with h | h
      · exact allDigits_no_underscore _ hdig h
      · rcases List.mem_append.mp h with h | h
        · exact absurd h (by decide)
        · exact allDigits_no_underscore _ hp5dig h
    have hfn : scienceGeneratedFilename instrument data_level descriptor start_time version (some r)
        = str "imap" ++ '_' :: (instrument ++ '_' :: (data_level ++ '_' :: (descriptor ++ '_' ::
            ((start_time ++ (str "-repoint" ++ pad5 r)) ++ '_' :: (version ++ '.' ::
              (if data_level = str "l0" then str "pkts" else str "cdf")))))) := by
      simp [scienceGeneratedFilename, str, List.append_assoc, Nat.pos_iff_ne_zero.mp hr1]
    have hL : (start_time ++ (str "-repoint" ++ pad5 r)).length = 21 := by
      simp only [List.length_append, hlen, hp5len]
      decide
    have htake8 : (start_time ++ (str "-repoint" ++ pad5 r)).take 8 = start_time :=
      List.take_left' hlen
    have hdrop8 : (start_time ++ (str "-repoint" ++ pad5 r)).drop 8
        = str "-repoint" ++ pad5 r := List.drop_left' hlen
    have hdrop16 : (start_time ++ (str "-repoint" ++ pad5 r)).drop 16 = pad5 r := by
      rw [← List.append_assoc]
      refine List.drop_left' ?_
      simp only [List.length_append, hlen]
      decide
    have htime : parseScienceTime (start_time ++ (str "-repoint" ++ pad5 r))
        = some (start_time, some r) := by
      simp only [parseScienceTime, hL, htake8, hdrop8, hdrop16, hdig, hp5dig, hp5val]
      simp [List.take_left' (by decide : (str "-repoint").length = 8)]
    rw [hfn]
    simp only [ScienceFilePath.extract_filename_components]
    rw [splitOn_append_cons _ _ (by decide), splitOn_append_cons _ _ hi.2,
        splitOn_append_cons _ _ hdl.2, splitOn_append_cons _ _ hd.2,
        splitOn_append_cons _ _ htfu, splitOn_single _ hveu]
    simp [htime, hpve, hi.1, hdl.1, hd.1]

theorem science_validate_generated
    (instrument data_level descriptor start_time version : Str) (repointing : Option Nat)
    (hi : instrument ∈ VALID_INSTRUMENTS) (hdl : data_level ∈ VALID_DATALEVELS)
    (hd : descriptor ≠ []) (hs : is_valid_date start_time = true)
    (hv : versionShape version = true) :
    ScienceFilePath.validate_filename
        ⟨str "imap", instrument, data_level, descriptor, start_time, repointing, version,
         if data_level = str "l0" then str "pkts" else str "cdf"⟩ = [] := by
  obtain ⟨hiw1, hiw2⟩ := VALID_INSTRUMENTS_wf instrument hi
  obtain ⟨hdw1, hdw2, -, -⟩ := VALID_DATALEVELS_wf data_level hdl
  have hnn : start_time ≠ [] := by
    obtain ⟨hlen, -⟩ := is_valid_date_shape _ hs
    intro h
    subst h
    simp at hlen
  obtain ⟨a, b, c, hveq, -, -, -⟩ := versionShape_elim version hv
  have hvn : version.isEmpty = false := by
    refine isEmpty_false_of_ne_nil ?_
    rw [hveq]
    simp
  by_cases hl : data_level = str "l0"
  · subst hl
    simp [ScienceFilePath.validate_filename, hi, hdl, hs, hv, hvn,
      isEmpty_false_of_ne_nil hiw1, isEmpty_false_of_ne_nil hd,
      isEmpty_false_of_ne_nil hnn, VALID_FILE_EXTENSION]
    try decide
  · simp [ScienceFilePath.validate_filename, hl, hi, hdl, hs, hv, hvn,
      isEmpty_false_of_ne_nil hiw1, isEmpty_false_of_ne_nil hdw1,
      isEmpty_false_of_ne_nil hd, isEmpty_false_of_ne_nil hnn,
      VALID_FILE_EXTENSION]
    try decide

/-- C2 (amended): for valid science field inputs with a repointing that is
either absent or a nonzero five-digit number, generating a filename and
re-classifying it succeeds and is the identity on every field, with the
extension determined by the data level; generated filenames are grammar-valid
by construction. -/
theorem C2_science_roundtrip_amended
    (instrument data_level descriptor start_time version : Str) (repointing : Option Nat)
    (hi : instrument ∈ VALID_INSTRUMENTS)
    (hdl : data_level ∈ VALID_DATALEVELS)
    (hd : descriptor ≠ [] ∧ '_' ∉ descriptor)
    (hs : is_valid_date start_time = true)
    (hv : versionShape version = true)
    (hr : ∀ r, repointing = some r → 0 < r ∧ r < 100000) :
    ∃ p : ScienceFilePath,
      ScienceFilePath.generate_from_inputs instrument data_level descriptor start_time
          version repointing = Except.ok p ∧
      p.comps.mission = str "imap" ∧
      p.comps.instrument = instrument ∧
      p.comps.data_level = data_level ∧
      p.comps.descriptor = descriptor ∧
      p.comps.start_date = start_time ∧
      p.comps.repointing = repointing ∧
      p.comps.version = version ∧
      p.comps.extension = (if data_level = str "l0" then str "pkts" else str "cdf") := by
  obtain ⟨hlen, hdig⟩ := is_valid_date_shape _ hs
  have hext := science_extract_generated instrument data_level descriptor start_time version
    repointing (VALID_INSTRUMENTS_wf instrument hi)
    ⟨(VALID_DATALEVELS_wf data_level hdl).1, (VALID_DATALEVELS_wf data_level hdl).2.1⟩
    hd hlen hdig hv hr
  have hval := science_validate_generated instrument data_level descriptor start_time version
    repointing hi hdl hd.1 hs hv
  refine ⟨⟨scienceGeneratedFilename instrument data_level descriptor start_time version
      repointing,
      ⟨str "imap", instrument, data_level, descriptor, start_time, repointing, version,
       if data_level = str "l0" then str "pkts" else str "cdf"⟩⟩,
    ?_, rfl, rfl, rfl, rfl, rfl, rfl, rfl, rfl⟩
  simp [ScienceFilePath.generate_from_inputs, ScienceFilePath.ofFilename, hext, hval]

/-- C2 counterexample: the claim as stated fails at repointing 0 (a value
the `repoint00000` grammar can represent): generation succeeds, but the
`if repointing:` truthiness test drops the zero repointing from the
filename, so the re-parsed record carries `none` instead of `some 0` and
the round trip is not the identity on the repointing field. -/
theorem C2_counterexample_zero_repointing :
    ScienceFilePath.generate_from_inputs (str "mag") (str "l1a") (str "burst")
        (str "20240312") (str "v001") (some 0) =
      Except.ok ⟨str "imap_mag_l1a_burst_20240312_v001.cdf",
        ⟨str "imap", str "mag", str "l1a", str "burst", str "20240312", none,
         str "v001", str "cdf"⟩⟩ ∧ (none : Option Nat) ≠ some 0 := by
  constructor
  · decide
  · decide

/-- C2 witness: the amended round trip at concrete inputs, with every
hypothesis discharged by evaluation. -/
theorem C2_witness :
    ∃ p : ScienceFilePath,
      ScienceFilePath.generate_from_inputs (str "mag") (str "l1a") (str "norm-magi")
          (str "20240312") (str "v001") (some 5) = Except.ok p ∧
      p.comps.mission = str "imap" ∧
      p.comps.instrument = str "mag" ∧
      p.comps.data_level = str "l1a" ∧
      p.comps.descriptor = str "norm-magi" ∧
      p.comps.start_date = str "20240312" ∧
      p.comps.repointing = some 5 ∧
      p.comps.version = str "v001" ∧
      p.comps.extension = (if str "l1a" = str "l0" then str "pkts" else str "cdf") :=
  C2_science_roundtrip_amended (str "mag") (str "l1a") (str "norm-magi") (str "20240312")
    (str "v001") (some 5) (by decide) (by decide) (by decide) (by decide) (by decide)
    (by intro r hr
        injection hr with h
        omega)

theorem ancillary_extract_name
    (instrument descriptor start_date version ext : Str)
    (hi : instrument ≠ [] ∧ '_' ∉ instrument)
    (hd : descriptor ≠ [] ∧ '_' ∉ descriptor)
    (hlen : start_date.length = 8) (hdig : allDigits start_date = true)
    (hv : versionShape version = true)
    (he : '_' ∉ ext) :
    AncillaryFilePath.extract_filename_components
        (ancillaryGeneratedFilename instrument descriptor version ext start_date none)
      = (if ext ∈ [str "cdf", str "cvs", str "json"]
         then some ⟨str "imap", instrument, descriptor, start_date, none, version, ext⟩
         else none) := by
  obtain ⟨a, b, c, hveq, ha, hb, hc⟩ := versionShape_elim version hv
  have hvu : '_' ∉ version := hveq ▸ version_no_underscore a b c ha hb hc
  have hveu : '_' ∉ version ++ '.' :: ext := by
    intro hm
    rcases List.mem_append.mp hm with h | h
    · exact hvu h
    · rcases List.mem_cons.mp h with h | h
      · exact absurd h (by decide)
      · exact he h
  have hstu : '_' ∉ start_date := allDigits_no_underscore _ hdig
  have hfn : ancillaryGeneratedFilename instrument descriptor version ext start_date none
      = str "imap" ++ '_' :: (instrument ++ '_' :: (descriptor ++ '_' ::
          (start_date ++ '_' :: (version ++ '.' :: ext)))) := by
    simp [ancillaryGeneratedFilename, str, List.append_assoc]
  have htime : parseAncillaryTime start_date = some (start_date, none) := by
    simp [parseAncillaryTime, hlen, hdig]
  have hpve : parseVersionExt [str "cdf", str "cvs", str "json"] (version ++ '.' :: ext)
      = (if ext ∈ [str "cdf", str "cvs", str "json"] then some (version, ext) else none) := by
    subst hveq
    simp only [List.cons_append, List.nil_append, parseVersionExt, ha, hb, hc,
      Bool.true_and, Bool.and_true]
    by_cases hm : ext ∈ [str "cdf", str "cvs", str "json"]
    · simp [hm, List.elem_iff]
    · simp [hm, List.elem_iff]
  rw [hfn]
  simp only [AncillaryFilePath.extract_filename_components]
  rw [splitOn_append_cons _ _ (by decide), splitOn_append_cons _ _ hi.2,
      splitOn_append_cons _ _ hd.2, splitOn_append_cons _ _ hstu,
      splitOn_single _ hveu]
  by_cases hm : ext ∈ [str "cdf", str "cvs", str "json"] <;>
    simp [htime, hpve, hi.1, hd.1, hm]

/-- C1 (amended): for every well-formed ancillary field tuple, the raw
grammar accepts exactly the extensions cdf, cvs and json — the source
alternation reads `cdf|cvs|json`, with `cvs` where the claim says `csv` —
and for the two non-cdf members (cvs, json) raw extraction succeeds while
construction then fails in semantic validation with exactly the extension
diagnostic, the validator accepting only cdf. -/
theorem C1_ancillary_extension_amended
    (instrument descriptor start_date version ext : Str)
    (hi : instrument ∈ VALID_INSTRUMENTS)
    (hd : descriptor ≠ [] ∧ '_' ∉ descriptor)
    (hs : is_valid_date start_date = true)
    (hv : versionShape version = true)
    (he : '_' ∉ ext) :
    ((AncillaryFilePath.extract_filename_components
        (ancillaryGeneratedFilename instrument descriptor version ext start_date none)).isSome
      ↔ ext ∈ [str "cdf", str "cvs", str "json"]) ∧
    (ext = str "cvs" ∨ ext = str "json" →
      AncillaryFilePath.ofFilename
          (ancillaryGeneratedFilename instrument descriptor version ext start_date none)
        = Except.error (AncillaryFailure.validationFailure
            [AncillaryError.invalidExtension])) := by
  obtain ⟨hlen, hdig⟩ := is_valid_date_shape _ hs
  have hext := ancillary_extract_name instrument descriptor start_date version ext
    (VALID_INSTRUMENTS_wf instrument hi) hd hlen hdig hv he
  constructor
  · rw [hext]
    by_cases hm : ext ∈ [str "cdf", str "cvs", str "json"] <;> simp [hm]
  · intro hce
    have hm : ext ∈ [str "cdf", str "cvs", str "json"] := by
      rcases hce with rfl | rfl <;> decide
    have hval : AncillaryFilePath.validate_filename
        ⟨str "imap", instrument, descriptor, start_date, none, version, ext⟩
        = [AncillaryError.invalidExtension] := by
      have hext_not : ext ∉ VALID_ANCILLARY_FILE_EXTENSION := by
        rcases hce with rfl | rfl <;> decide
      obtain ⟨hiw1, -⟩ := VALID_INSTRUMENTS_wf instrument hi
      have hnn : start_date ≠ [] := by
        intro h
        subst h
        simp at hlen
      obtain ⟨a, b, c, hveq, -, -, -⟩ := versionShape_elim version hv
      have hvn : version.isEmpty = false := by
        refine isEmpty_false_of_ne_nil ?_
        rw [hveq]
        simp
      have hen : ext.isEmpty = false := by
        rcases hce with rfl | rfl <;> decide
      simp [AncillaryFilePath.validate_filename, hi, hs, hext_not,
        isEmpty_false_of_ne_nil (show str "imap" ≠ [] by decide),
        isEmpty_false_of_ne_nil hiw1, isEmpty_false_of_ne_nil hd.1, hvn, hen]
    simp only [AncillaryFilePath.ofFilename, hext, if_pos hm, hval]
    simp

/-- C1 counterexample: for the csv spelling the claim fails — the source's
raw alternation reads `cdf|cvs|json`, so a `.csv` ancillary filename does
not match the raw pattern at all: extraction fails with a pattern mismatch
instead of succeeding and reaching the extension validator. -/
theorem C1_counterexample_csv :
    AncillaryFilePath.extract_filename_components
        (str "imap_mag_test-desc_20240101_v001.csv") = none ∧
    AncillaryFilePath.ofFilename (str "imap_mag_test-desc_20240101_v001.csv")
      = Except.error (AncillaryFailure.patternMismatch
          (str "imap_mag_test-desc_20240101_v001.csv")) := by
  constructor
  · decide
  · decide

/-- C1 witness: the amended statement at concrete inputs with extension
json, every hypothesis discharged by evaluation. -/
theorem C1_witness :
    ((AncillaryFilePath.extract_filename_components
        (ancillaryGeneratedFilename (str "mag") (str "test-desc") (str "v001") (str "json")
          (str "20240101") none)).isSome
      ↔ str "json" ∈ [str "cdf", str "cvs", str "json"]) ∧
    (str "json" = str "cvs" ∨ str "json" = str "json" →
      AncillaryFilePath.ofFilename
          (ancillaryGeneratedFilename (str "mag") (str "test-desc") (str "v001") (str "json")
            (str "20240101") none)
        = Except.error (AncillaryFailure.validationFailure
            [AncillaryError.invalidExtension])) :=
  C1_ancillary_extension_amended (str "mag") (str "test-desc") (str "20240101") (str "v001")
    (str "json") (by decide) (by decide) (by decide) (by decide) (by decide)

/-- C5: for every filename whose raw positional pattern matches (science or
ancillary), construction fails exactly when the accumulated diagnostic list
is nonempty, carrying that whole list, and the list contains one diagnostic
for every violated semantic constraint — mission literal, instrument
membership, data-level membership (science), calendar-valid dates, version
format, and the extension rules — not only the first violation. -/
theorem C5_validation_accumulates :
    (∀ f cmp, ScienceFilePath.extract_filename_components f = some cmp →
      ((ScienceFilePath.validate_filename cmp ≠ [] →
          ScienceFilePath.ofFilename f = Except.error (ScienceFailure.validationFailure
            (ScienceFilePath.validate_filename cmp))) ∧
       (cmp.mission ≠ str "imap" →
          ScienceError.invalidMission cmp.mission ∈ ScienceFilePath.validate_filename cmp) ∧
       (cmp.instrument ∉ VALID_INSTRUMENTS →
          ScienceError.invalidInstrument cmp.instrument ∈ ScienceFilePath.validate_filename cmp) ∧
       (cmp.data_level ∉ VALID_DATALEVELS →
          ScienceError.invalidDataLevel cmp.data_level ∈ ScienceFilePath.validate_filename cmp) ∧
       (is_valid_date cmp.start_date = false →
          ScienceError.invalidStartDate ∈ ScienceFilePath.validate_filename cmp) ∧
       (versionShape cmp.version = false →
          ScienceError.invalidVersion ∈ ScienceFilePath.validate_filename cmp) ∧
       ((cmp.extension ∉ VALID_FILE_EXTENSION
           ∨ (cmp.data_level = str "l0" ∧ cmp.extension ≠ str "pkts")
           ∨ (cmp.data_level ≠ str "l0" ∧ cmp.extension ≠ str "cdf")) →
          ScienceError.invalidExtension ∈ ScienceFilePath.validate_filename cmp))) ∧
    (∀ f cmp, AncillaryFilePath.extract_filename_components f = some cmp →
      ((AncillaryFilePath.validate_filename cmp ≠ [] →
          AncillaryFilePath.ofFilename f = Except.error (AncillaryFailure.validationFailure
            (AncillaryFilePath.validate_filename cmp))) ∧
       (cmp.mission ≠ str "imap" →
          AncillaryError.invalidMission cmp.mission ∈ AncillaryFilePath.validate_filename cmp) ∧
       (cmp.instrument ∉ VALID_INSTRUMENTS →
          AncillaryError.invalidInstrument cmp.instrument ∈ AncillaryFilePath.validate_filename cmp) ∧
       (cmp.extension ∉ VALID_ANCILLARY_FILE_EXTENSION →
          AncillaryError.invalidExtension ∈ AncillaryFilePath.validate_filename cmp) ∧
       (is_valid_date cmp.start_date = false →
          AncillaryError.invalidStartDate ∈ AncillaryFilePath.validate_filename cmp) ∧
       (∀ e, cmp.end_date = some e → is_valid_date e = false →
          AncillaryError.invalidEndDate ∈ AncillaryFilePath.validate_filename cmp))) := by
  constructor
  · intro f cmp hex
    refine ⟨?_, ?_, ?_, ?_, ?_, ?_, ?_⟩
    · intro hne
      simp [ScienceFilePath.ofFilename, hex, hne]
    · intro h
      simp [ScienceFilePath.validate_filename, h]
    · intro h
      simp [ScienceFilePath.validate_filename, h]
    · intro h
      simp [ScienceFilePath.validate_filename, h]
    · intro h
      simp [ScienceFilePath.validate_filename, h]
    · intro h
      simp [ScienceFilePath.validate_filename, h]
    · intro h
      simp [ScienceFilePath.validate_filename, h]
  · intro f cmp hex
    refine ⟨?_, ?_, ?_, ?_, ?_, ?_⟩
    · intro hne
      simp [AncillaryFilePath.ofFilename, hex, hne]
    · intro h
      simp [AncillaryFilePath.validate_filename, h]
    · intro h
      simp [AncillaryFilePath.validate_filename, h]
    · intro h
      simp [AncillaryFilePath.validate_filename, h]
    · intro h
      simp [AncillaryFilePath.validate_filename, h]
    · intro e hee h
      simp [AncillaryFilePath.validate_filename, hee, h]

/-- C5 witness: a raw-matching science filename violating three constraints
at once (unknown instrument, unknown data level, non-calendar date Feb 30):
construction fails with the full accumulated list, which contains all three
diagnostics. -/
theorem C5_witness :
    ScienceFilePath.ofFilename (str "imap_foo_l9z_d_20240230_v001.cdf")
      = Except.error (ScienceFailure.validationFailure
          (ScienceFilePath.validate_filename
            ⟨str "imap", str "foo", str "l9z", str "d", str "20240230", none,
             str "v001", str "cdf"⟩)) ∧
    ScienceError.invalidInstrument (str "foo") ∈ ScienceFilePath.validate_filename
        ⟨str "imap", str "foo", str "l9z", str "d", str "20240230", none,
         str "v001", str "cdf"⟩ ∧
    ScienceError.invalidDataLevel (str "l9z") ∈ ScienceFilePath.validate_filename
        ⟨str "imap", str "foo", str "l9z", str "d", str "20240230", none,
         str "v001", str "cdf"⟩ ∧
    ScienceError.invalidStartDate ∈ ScienceFilePath.validate_filename
        ⟨str "imap", str "foo", str "l9z", str "d", str "20240230", none,
         str "v001", str "cdf"⟩ := by
  obtain ⟨hsci, -⟩ := C5_validation_accumulates
  obtain ⟨h1, -, h3, h4, h5, -, -⟩ := hsci (str "imap_foo_l9z_d_20240230_v001.cdf")
    ⟨str "imap", str "foo", str "l9z", str "d", str "20240230", none, str "v001", str "cdf"⟩
    (by decide)
  exact ⟨h1 (by decide), h3 (by decide), h4 (by decide), h5 (by decide)⟩

/-- C4: classification tries the three families in the fixed order SPICE,
then Science, then Ancillary, returns the result of the first constructor
that succeeds, and when all three fail it fails with the single top-level
error that names the filename and chains the underlying ancillary failure. -/
theorem C4_classification_order (filename : Str) :
    (∀ p, SPICEFilePath.ofFilename filename = Except.ok p →
      generate_imap_file_path filename = Except.ok (ImapFilePathObj.spice p)) ∧
    (∀ e p, SPICEFilePath.ofFilename filename = Except.error e →
      ScienceFilePath.ofFilename filename = Except.ok p →
      generate_imap_file_path filename = Except.ok (ImapFilePathObj.science p)) ∧
    (∀ e1 e2 p, SPICEFilePath.ofFilename filename = Except.error e1 →
      ScienceFilePath.ofFilename filename = Except.error e2 →
      AncillaryFilePath.ofFilename filename = Except.ok p →
      generate_imap_file_path filename = Except.ok (ImapFilePathObj.ancillary p)) ∧
    (∀ e1 e2 e3, SPICEFilePath.ofFilename filename = Except.error e1 →
      ScienceFilePath.ofFilename filename = Except.error e2 →
      AncillaryFilePath.ofFilename filename = Except.error e3 →
      generate_imap_file_path filename = Except.error ⟨filename, e3⟩) := by
  refine ⟨?_, ?_, ?_, ?_⟩
  · intro p h
    simp [generate_imap_file_path, h]
  · intro e p h1 h2
    simp [generate_imap_file_path, h1, h2]
  · intro e1 e2 p h1 h2 h3
    simp [generate_imap_file_path, h1, h2, h3]
  · intro e1 e2 e3 h1 h2 h3
    simp [generate_imap_file_path, h1, h2, h3]

/-- C4 witness: a filename matching none of the three conventions yields the
chained top-level error naming the filename. -/
theorem C4_witness :
    generate_imap_file_path (str "nope.txt")
      = Except.error ⟨str "nope.txt", AncillaryFailure.patternMismatch (str "nope.txt")⟩ :=
  (C4_classification_order (str "nope.txt")).2.2.2
    (SpiceFailure.invalidSpiceFile (SPICE_DIR_MAPPING.map Prod.fst))
    (ScienceFailure.patternMismatch (str "nope.txt"))
    (AncillaryFailure.patternMismatch (str "nope.txt"))
    (by decide) (by decide) (by decide)

theorem lookup_of_mem_keys {l : List (Str × Str)} {k : Str}
    (h : k ∈ l.map Prod.fst) : ∃ v, l.lookup k = some v := by
  induction l with
  | nil => simp at h
  | cons p t ih =>
    by_cases hk : k = p.fst
    · subst hk
      exact ⟨p.snd, by simp [List.lookup]⟩
    · have h1 : k ∈ t.map Prod.fst := by
        rcases List.mem_cons.mp (by simpa using h : k ∈ p.fst :: t.map Prod.fst) with h2 | h2
        · exact absurd h2 hk
        · exact h2
      obtain ⟨v, hv⟩ := ih h1
      refine ⟨v, ?_⟩
      simp only [List.lookup]
      have hb : (k == p.fst) = false := beq_eq_false_iff_ne.mpr hk
      simp [hb, hv]

/-- C6: when the configured archive root is unset or empty (modelled as the
empty root, which pathlib's join leaves without effect), construct_path of
every validated record of each family returns the archive-relative path
with no root prefix: science `mission/instrument/level/YYYY/MM/filename`,
ancillary `mission/ancillary/instrument/filename`, and SPICE
`spice/subdir/filename`. -/
theorem C6_empty_root_relative :
    (∀ f p, ScienceFilePath.ofFilename f = Except.ok p →
      ScienceFilePath.construct_path [] p
        = p.comps.mission ++ '/' :: p.comps.instrument ++ '/' :: p.comps.data_level
            ++ '/' :: p.comps.start_date.take 4 ++ '/' :: (p.comps.start_date.drop 4).take 2
            ++ '/' :: p.filename) ∧
    (∀ f p, AncillaryFilePath.ofFilename f = Except.ok p →
      AncillaryFilePath.construct_path [] p
        = p.comps.mission ++ '/' :: str "ancillary" ++ '/' :: p.comps.instrument
            ++ '/' :: p.filename) ∧
    (∀ f p, SPICEFilePath.ofFilename f = Except.ok p →
      ∃ subdir, SPICE_DIR_MAPPING.lookup p.file_extension = some subdir ∧
        SPICEFilePath.construct_path [] p
          = str "spice" ++ '/' :: subdir ++ '/' :: p.filename) := by
  refine ⟨?_, ?_, ?_⟩
  · intro f p _
    simp [ScienceFilePath.construct_path, joinIfRoot]
  · intro f p _
    simp [AncillaryFilePath.construct_path, joinIfRoot]
  · intro f p h
    have hmem : p.file_extension ∈ SPICE_DIR_MAPPING.map Prod.fst := by
      simp only [SPICEFilePath.ofFilename] at h
      by_cases hc : (SPICE_DIR_MAPPING.map Prod.fst).contains (spiceFileExtension f)
      · rw [if_pos hc] at h
        injection h with h2
        rw [← h2]
        exact List.elem_iff.mp hc
      · rw [if_neg hc] at h
        exact absurd h (by simp)
    obtain ⟨subdir, hsub⟩ := lookup_of_mem_keys hmem
    refine ⟨subdir, hsub, ?_⟩
    simp [SPICEFilePath.construct_path, joinIfRoot, hsub]

/-- C6 witness: a validated record of each family, with the relative paths
computed by evaluation. -/
theorem C6_witness :
    ScienceFilePath.construct_path []
        ⟨str "imap_mag_l1a_norm-magi_20240312_v000.cdf",
         ⟨str "imap", str "mag", str "l1a", str "norm-magi", str "20240312", none,
          str "v000", str "cdf"⟩⟩
      = str "imap" ++ '/' :: str "mag" ++ '/' :: str "l1a" ++ '/' :: (str "20240312").take 4
          ++ '/' :: ((str "20240312").drop 4).take 2
          ++ '/' :: str "imap_mag_l1a_norm-magi_20240312_v000.cdf" ∧
    ∃ subdir, SPICE_DIR_MAPPING.lookup (str ".tls") = some subdir ∧
      SPICEFilePath.construct_path [] ⟨str "k.tls", str ".tls"⟩
        = str "spice" ++ '/' :: subdir ++ '/' :: str "k.tls" := by
  constructor
  · exact (C6_empty_root_relative).1 (str "imap_mag_l1a_norm-magi_20240312_v000.cdf")
      ⟨str "imap_mag_l1a_norm-magi_20240312_v000.cdf",
       ⟨str "imap", str "mag", str "l1a", str "norm-magi", str "20240312", none,
        str "v000", str "cdf"⟩⟩ (by decide)
  · exact (C6_empty_root_relative).2.2 (str "k.tls") ⟨str "k.tls", str ".tls"⟩ (by decide)

/-- C7: the science path is the archive root joined with
`mission/instrument/data_level/YYYY/MM/filename`, where YYYY is the first
four and MM the next two characters of start_date; concretely, for
instrument mag, level l1a and start date 20240312 the relative path is
`imap/mag/l1a/2024/03/<filename>`.  The path is a pure function of the
record and the configured root. -/
theorem C7_science_path (data_dir f : Str) (p : ScienceFilePath)
    (h : ScienceFilePath.ofFilename f = Except.ok p) :
    ScienceFilePath.construct_path data_dir p
      = joinIfRoot data_dir (p.comps.mission ++ '/' :: p.comps.instrument ++ '/' ::
          p.comps.data_level ++ '/' :: p.comps.start_date.take 4 ++ '/' ::
          (p.comps.start_date.drop 4).take 2 ++ '/' :: p.filename) ∧
    (∀ q, ScienceFilePath.ofFilename (str "imap_mag_l1a_norm-magi_20240312_v000.cdf")
        = Except.ok q →
      ScienceFilePath.construct_path [] q
        = str "imap/mag/l1a/2024/03/imap_mag_l1a_norm-magi_20240312_v000.cdf") := by
  constructor
  · rfl
  · intro q hq
    have hconc : ScienceFilePath.ofFilename (str "imap_mag_l1a_norm-magi_20240312_v000.cdf")
        = Except.ok (⟨str "imap_mag_l1a_norm-magi_20240312_v000.cdf",
            ⟨str "imap", str "mag", str "l1a", str "norm-magi", str "20240312", none,
             str "v000", str "cdf"⟩⟩ : ScienceFilePath) := by decide
    rw [hconc] at hq
    injection hq with h2
    rw [← h2]
    decide

/-- C7 witness: the general equation and the concrete mag/l1a/20240312 path
at a concrete validated record. -/
theorem C7_witness :
    ScienceFilePath.construct_path (str "data")
        ⟨str "imap_mag_l1a_norm-magi_20240312_v000.cdf",
         ⟨str "imap", str "mag", str "l1a", str "norm-magi", str "20240312", none,
          str "v000", str "cdf"⟩⟩
      = joinIfRoot (str "data") (str "imap" ++ '/' :: str "mag" ++ '/' :: str "l1a"
          ++ '/' :: (str "20240312").take 4 ++ '/' :: ((str "20240312").drop 4).take 2
          ++ '/' :: str "imap_mag_l1a_norm-magi_20240312_v000.cdf") :=
  (C7_science_path (str "data") (str "imap_mag_l1a_norm-magi_20240312_v000.cdf")
    ⟨str "imap_mag_l1a_norm-magi_20240312_v000.cdf",
     ⟨str "imap", str "mag", str "l1a", str "norm-magi", str "20240312", none,
      str "v000", str "cdf"⟩⟩ (by decide)).1

/-- C10: a filename is accepted as a SPICE file exactly when its extension
key — the concatenation of all dotted suffixes when the final suffix is
`.csv`, the final suffix alone otherwise — is a key of the fixed
extension-to-subdirectory table; every rejection carries the error listing
the valid keys; `x.spin.csv` is accepted via the compound key `.spin.csv`
while `x.b.spin.csv` is rejected because its key `.b.spin.csv` is not in
the table. -/
theorem C10_spice_extension_table (name : Str) :
    ((∃ p, SPICEFilePath.ofFilename name = Except.ok p) ↔
      (if pySuffix name = str ".csv" then (pySuffixes name).flatten else pySuffix name)
        ∈ SPICE_DIR_MAPPING.map Prod.fst) ∧
    (∀ e, SPICEFilePath.ofFilename name = Except.error e →
      e = SpiceFailure.invalidSpiceFile (SPICE_DIR_MAPPING.map Prod.fst)) ∧
    (∃ p, SPICEFilePath.ofFilename (str "x.spin.csv") = Except.ok p ∧
      p.file_extension = str ".spin.csv") ∧
    SPICEFilePath.ofFilename (str "x.b.spin.csv")
      = Except.error (SpiceFailure.invalidSpiceFile (SPICE_DIR_MAPPING.map Prod.fst)) := by
  refine ⟨?_, ?_, ?_, ?_⟩
  · by_cases hc : (SPICE_DIR_MAPPING.map Prod.fst).contains (spiceFileExtension name)
    · have hmem := List.elem_iff.mp hc
      rw [spiceFileExtension] at hmem
      refine ⟨fun _ => hmem, fun _ => ⟨⟨name, spiceFileExtension name⟩, ?_⟩⟩
      unfold SPICEFilePath.ofFilename
      rw [if_pos hc]
    · have hnm : (if pySuffix name = str ".csv" then (pySuffixes name).flatten
          else pySuffix name) ∉ SPICE_DIR_MAPPING.map Prod.fst := by
        intro hm
        refine hc (List.elem_iff.mpr ?_)
        rw [spiceFileExtension]
        exact hm
      constructor
      · rintro ⟨p, hp⟩
        unfold SPICEFilePath.ofFilename at hp
        rw [if_neg hc] at hp
        exact absurd hp (by simp)
      · intro hm
        exact absurd hm hnm
  · intro e he
    by_cases hc : (SPICE_DIR_MAPPING.map Prod.fst).contains (spiceFileExtension name)
    · unfold SPICEFilePath.ofFilename at he
      rw [if_pos hc] at he
      exact absurd he (by simp)
    · unfold SPICEFilePath.ofFilename at he
      rw [if_neg hc] at he
      injection he with h2
      exact h2.symm
  · exact ⟨⟨str "x.spin.csv", str ".spin.csv"⟩, by decide, rfl⟩
  · decide

/-- C10 witness: the acceptance criterion applied at a concrete accepted
name, and a concrete rejection carrying the key-listing error. -/
theorem C10_witness :
    (∃ p, SPICEFilePath.ofFilename (str "k.tls") = Except.ok p) ∧
    SPICEFilePath.ofFilename (str "bad.txt")
      = Except.error (SpiceFailure.invalidSpiceFile (SPICE_DIR_MAPPING.map Prod.fst)) := by
  constructor
  · exact (C10_spice_extension_table (str "k.tls")).1.mpr (by decide)
  · decide

/-- C9: `get_file_paths` returns, in insertion order, the flattened
constructed paths of exactly those entries that pass the filters, where an
entry passes exactly when its source equals the given source (when
provided) and its descriptor contains the given descriptor as a substring
(when provided) — substring meaning some decomposition
`descriptor = pre ++ given ++ post`, not an exact match — with an omitted
filter matching every entry. -/
theorem C9_get_file_paths_filter (data_dir : Str) (c : ProcessingInputCollection)
    (source descriptor : Option Str) :
    (ProcessingInputCollection.get_file_paths data_dir c source descriptor
      = (c.processing_input.filter (entryMatches source descriptor)).flatMap
          (fun i => i.imap_file_paths.map (ImapFilePathObj.construct_path data_dir))) ∧
    (∀ i, entryMatches source descriptor i = true ↔
      ((∀ s, source = some s → i.source = s) ∧
       (∀ ds, descriptor = some ds → ∃ pre post, i.descriptor = pre ++ ds ++ post))) := by
  constructor
  · show getFilePathsList data_dir source descriptor c.processing_input = _
    induction c.processing_input with
    | nil => rfl
    | cons i rest ih =>
      simp only [getFilePathsList, List.filter_cons]
      by_cases hcond : entryMatches source descriptor i = true
      · rw [if_pos hcond, if_pos hcond, List.flatMap_cons, ih]
      · rw [if_neg hcond, if_neg hcond, ih]
        simp
  · intro i
    unfold entryMatches
    rcases source with _ | s <;> rcases descriptor with _ | ds
    · simp
    · simp [substringOf_iff]
    · simp [beq_iff_eq]
    · simp [beq_iff_eq, substringOf_iff]

/-- C9 witness: the substring semantics of the descriptor filter at the
concrete descriptors of the spec's example. -/
theorem C9_witness :
    entryMatches none (some (str "45se"))
        ⟨ProcessingInputType.SCIENCE_FILE, [], [], str "ultra", str "45sensor-pset",
         str "l1c"⟩ = true ↔
      ((∀ s, (none : Option Str) = some s → str "ultra" = s) ∧
       (∀ ds, (some (str "45se") : Option Str) = some ds →
         ∃ pre post, str "45sensor-pset" = pre ++ ds ++ post)) :=
  (C9_get_file_paths_filter [] ⟨[]⟩ none (some (str "45se"))).2
    ⟨ProcessingInputType.SCIENCE_FILE, [], [], str "ultra", str "45sensor-pset", str "l1c"⟩

theorem generate_science_inv (f : Str) (p : ScienceFilePath)
    (h : generate_imap_file_path f = Except.ok (ImapFilePathObj.science p)) :
    ScienceFilePath.ofFilename f = Except.ok p := by
  unfold generate_imap_file_path at h
  cases hs : SPICEFilePath.ofFilename f with
  | ok q =>
    rw [hs] at h
    simp at h
  | error e1 =>
    rw [hs] at h
    cases hsc : ScienceFilePath.ofFilename f with
    | ok q =>
      rw [hsc] at h
      simp at h
      rw [h]
    | error e2 =>
      rw [hsc] at h
      cases ha : AncillaryFilePath.ofFilename f with
      | ok q =>
        rw [ha] at h
        simp at h
      | error e3 =>
        rw [ha] at h
        simp at h

theorem ofFilename_validate_nil (f : Str) (p : ScienceFilePath)
    (h : ScienceFilePath.ofFilename f = Except.ok p) :
    ScienceFilePath.validate_filename p.comps = [] := by
  unfold ScienceFilePath.ofFilename at h
  cases hex : ScienceFilePath.extract_filename_components f with
  | none =>
    rw [hex] at h
    simp at h
  | some c =>
    rw [hex] at h
    dsimp only at h
    by_cases hv : ScienceFilePath.validate_filename c = []
    · rw [if_pos hv] at h
      injection h with h2
      rw [← h2]
      exact hv
    · rw [if_neg hv] at h
      simp at h

theorem validate_nil_data_level (c : ScienceComponents)
    (h : ScienceFilePath.validate_filename c = []) : c.data_level ∈ VALID_DATALEVELS := by
  by_contra hc
  simp [ScienceFilePath.validate_filename, hc] at h

theorem ScienceInput_wf (fns : List Str) (i : ProcessingInput)
    (h : ScienceInput fns = some i) :
    i.filename_list = fns ∧ i.data_type ∈ VALID_DATALEVELS := by
  unfold ScienceInput at h
  rw [Option.bind_eq_some] at h
  obtain ⟨objs, h1, h⟩ := h
  rw [Option.bind_eq_some] at h
  obtain ⟨comps, h2, h⟩ := h
  split at h
  · exact absurd h (by simp)
  · rename_i c0 rest
    by_cases hall : rest.all (fun c => c.instrument == c0.instrument
        && c.descriptor == c0.descriptor && c.data_level == c0.data_level)
    · rw [if_pos hall] at h
      injection h with h3
      obtain ⟨hcomps, -⟩ := traverseOpt_eq_some _ objs (c0 :: rest) h2
      have hc0 : c0 ∈ objs.filterMap scienceCompsOf := by
        rw [← hcomps]
        simp
      obtain ⟨o, ho, hfo⟩ := List.mem_filterMap.mp hc0
      obtain ⟨hobjs, -⟩ := traverseOpt_eq_some _ fns objs h1
      have hoin : o ∈ fns.filterMap (fun f => (generate_imap_file_path f).toOption) := by
        rw [← hobjs]
        exact ho
      obtain ⟨fn, hfn, hgen⟩ := List.mem_filterMap.mp hoin
      cases o with
      | science p =>
        have hp : p.comps = c0 := by simpa [scienceCompsOf] using hfo
        have hgen2 : generate_imap_file_path fn
            = Except.ok (ImapFilePathObj.science p) := by
          cases hg : generate_imap_file_path fn with
          | ok v =>
            rw [hg] at hgen
            simp [Except.toOption] at hgen
            rw [hgen]
          | error e =>
            rw [hg] at hgen
            simp [Except.toOption] at hgen
        have hval := ofFilename_validate_nil fn p (generate_science_inv fn p hgen2)
        have hdl := validate_nil_data_level p.comps hval
        rw [hp] at hdl
        rw [← h3]
        exact ⟨rfl, hdl⟩
      | spice p => simp [scienceCompsOf] at hfo
      | ancillary p => simp [scienceCompsOf] at hfo
    · rw [if_neg hall] at h
      exact absurd h (by simp)

theorem AncillaryInput_wf (fns : List Str) (i : ProcessingInput)
    (h : AncillaryInput fns = some i) :
    i.filename_list = fns ∧ i.data_type = str "ancillary" := by
  unfold AncillaryInput at h
  rw [Option.bind_eq_some] at h
  obtain ⟨objs, h1, h⟩ := h
  rw [Option.bind_eq_some] at h
  obtain ⟨comps, h2, h⟩ := h
  split at h
  · exact absurd h (by simp)
  · rename_i c0 rest
    by_cases hall : rest.all (fun c => c.instrument == c0.instrument
        && c.descriptor == c0.descriptor)
    · rw [if_pos hall] at h
      injection h with h3
      rw [← h3]
      exact ⟨rfl, rfl⟩
    · rw [if_neg hall] at h
      exact absurd h (by simp)

theorem SPICEInput_wf (fns : List Str) (i : ProcessingInput)
    (h : SPICEInput fns = some i) :
    i.filename_list = fns ∧ i.data_type = str "spice" := by
  unfold SPICEInput at h
  rw [Option.bind_eq_some] at h
  obtain ⟨objs, h1, h⟩ := h
  by_cases hc : (objs.all isSpiceObj && !objs.isEmpty) = true
  · rw [if_pos hc] at h
    injection h with h3
    rw [← h3]
    exact ⟨rfl, rfl⟩
  · rw [if_neg hc] at h
    exact absurd h (by simp)

theorem deserializeEntry_roundtrip (i : ProcessingInput) (h : InputWF i) :
    deserializeEntry i.data_type i.filename_list = some i := by
  rcases h with hw | hw | hw
  · obtain ⟨-, hdl⟩ := ScienceInput_wf _ _ hw
    obtain ⟨-, -, hna, hns⟩ := VALID_DATALEVELS_wf _ hdl
    unfold deserializeEntry
    rw [if_neg hna, if_neg hns]
    exact hw
  · obtain ⟨-, hdt⟩ := AncillaryInput_wf _ _ hw
    unfold deserializeEntry
    rw [if_pos hdt]
    exact hw
  · obtain ⟨-, hdt⟩ := SPICEInput_wf _ _ hw
    unfold deserializeEntry
    rw [hdt]
    rw [if_neg (by decide : ¬ str "spice" = str "ancillary"), if_pos rfl]
    exact hw

/-- C3: serialization emits, in insertion order, one (data_type tag, ordered
filename list) pair per entry, and deserializing that payload into any
collection reconstructs, by dispatching on each tag, entries equal to the
originals and appends them after the entries already present rather than
replacing them. -/
theorem C3_serialize_roundtrip (c c2 : ProcessingInputCollection)
    (h : ∀ i ∈ c2.processing_input, InputWF i) :
    ProcessingInputCollection.serialize c2
        = c2.processing_input.map (fun i => (i.data_type, i.filename_list)) ∧
    ProcessingInputCollection.deserialize c (ProcessingInputCollection.serialize c2)
      = some ⟨c.processing_input ++ c2.processing_input⟩ := by
  refine ⟨rfl, ?_⟩
  unfold ProcessingInputCollection.deserialize ProcessingInputCollection.serialize
  have hterm : traverseOpt (fun e => deserializeEntry e.fst e.snd)
      (c2.processing_input.map (fun i => (i.data_type, i.filename_list)))
      = some c2.processing_input := by
    refine traverseOpt_map_some _ _ c2.processing_input ?_
    intro i hi
    exact deserializeEntry_roundtrip i (h i hi)
  rw [hterm]
  rfl

/-- C3 witness: a collection of one ancillary entry (two files) and one
science entry (two files) serializes and deserializes into an empty
collection as exactly those two entries, in order. -/
theorem C3_witness :
    ProcessingInputCollection.deserialize ⟨[]⟩
        (ProcessingInputCollection.serialize
          ⟨(AncillaryInput [str "imap_mag_l1b-cal_20250101_v001.cdf",
              str "imap_mag_l1b-cal_20250103-20250104_v002.cdf"]).toList
            ++ (ScienceInput [str "imap_mag_l1a_norm-magi_20240312_v000.cdf",
                 str "imap_mag_l1a_norm-magi_20240312_v001.cdf"]).toList⟩)
      = some ⟨([] : List ProcessingInput)
          ++ ((AncillaryInput [str "imap_mag_l1b-cal_20250101_v001.cdf",
                str "imap_mag_l1b-cal_20250103-20250104_v002.cdf"]).toList
            ++ (ScienceInput [str "imap_mag_l1a_norm-magi_20240312_v000.cdf",
                 str "imap_mag_l1a_norm-magi_20240312_v001.cdf"]).toList)⟩ :=
  (C3_serialize_roundtrip ⟨[]⟩
    ⟨(AncillaryInput [str "imap_mag_l1b-cal_20250101_v001.cdf",
        str "imap_mag_l1b-cal_20250103-20250104_v002.cdf"]).toList
      ++ (ScienceInput [str "imap_mag_l1a_norm-magi_20240312_v000.cdf",
           str "imap_mag_l1a_norm-magi_20240312_v001.cdf"]).toList⟩
    (by decide)).2

theorem versionShape_numOf (v : Str) (h : versionShape v = true) :
    ∃ n, versionNumOf v = some n := by
  obtain ⟨a, b, c, hveq, ha, hb, hc⟩ := versionShape_elim v h
  subst hveq
  refine ⟨natOfDigits [a, b, c], ?_⟩
  simp [versionNumOf, allDigits, ha, hb, hc]

theorem traverseOpt_isSome {A B : Type} (f : A → Option B) (l : List A)
    (h : ∀ a ∈ l, (f a).isSome = true) : traverseOpt f l = some (l.filterMap f) := by
  induction l with
  | nil => simp [traverseOpt]
  | cons a t ih =>
    obtain ⟨b, hb⟩ := Option.isSome_iff_exists.mp (h a (by simp))
    simp only [traverseOpt]
    rw [hb, ih (fun x hx => h x (List.mem_cons_of_mem _ hx))]
    simp [List.filterMap_cons, hb]

theorem maxVersionNum_def (items : List QueryRecord) :
    maxVersionNum items
      = (items.filterMap (fun r => versionNumOf r.version)).foldl Nat.max 0 := rfl

/-- C8: with the version filter equal to the literal `latest`: the version
key is removed from the outbound parameter list; when no other filter was
passed the query fails with the dedicated error before consulting any
response; and otherwise, when the remaining per-field validations pass and
every response record carries a `vNNN` version, the result is the response
post-filtered client-side to exactly the records whose three-digit version
number equals the maximum version number present among the results. -/
theorem C8_latest_version_query (q : QueryFilters) (resp : List QueryRecord)
    (hv : q.version = some (str "latest")) :
    ((str "version") ∉ (outboundParams q).map Prod.fst) ∧
    (q.instrument = none → q.data_level = none → q.descriptor = none →
     q.start_date = none → q.end_date = none → q.repointing = none → q.extension = none →
     ∀ resp2, query q resp2 = Except.error QueryError.noOtherParamWithLatest) ∧
    (outboundParams q ≠ [] →
     (∀ s, q.instrument = some s → s ∈ VALID_INSTRUMENTS) →
     (∀ s, q.data_level = some s → s ∈ VALID_DATALEVELS) →
     (∀ s, q.start_date = some s → is_valid_date s = true) →
     (∀ s, q.end_date = some s → is_valid_date s = true) →
     (∀ s, q.repointing = some s → is_valid_repointing s = true) →
     (∀ s, q.extension = some s → s ∈ VALID_FILE_EXTENSION) →
     (∀ r ∈ resp, versionShape r.version = true) →
     (query q resp = Except.ok (resp.filter
        (fun r => versionNumOf r.version == some (maxVersionNum resp))) ∧
      (∀ r ∈ resp, ∀ n, versionNumOf r.version = some n → n ≤ maxVersionNum resp) ∧
      (resp ≠ [] → ∃ r ∈ resp, versionNumOf r.version = some (maxVersionNum resp)))) := by
  refine ⟨?_, ?_, ?_⟩
  · intro hmem
    unfold outboundParams at hmem
    rw [if_pos hv] at hmem
    obtain ⟨kv, hin, hfst⟩ := List.mem_map.mp hmem
    have h2 := (List.mem_filter.mp hin).2
    rw [hfst] at h2
    simp at h2
  · intro h1 h2 h3 h4 h5 h6 h7 resp2
    have hp : outboundParams q = [] := by
      simp [outboundParams, queryParamsBase, optEntry, h1, h2, h3, h4, h5, h6, h7, hv]
    unfold query
    rw [if_pos ⟨hv, hp⟩]
  · intro hne hinst hdl hsd hed hrep hext hshape
    have hc1 : ¬(q.version = some (str "latest") ∧ outboundParams q = []) :=
      fun hcontra => hne hcontra.2
    have hc3 : q.instrument.any (fun i => !VALID_INSTRUMENTS.contains i) = false := by
      cases hqi : q.instrument with
      | none => rfl
      | some s =>
        simp [Option.any]
        exact hinst s hqi
    have hc4 : q.data_level.any (fun dl => !VALID_DATALEVELS.contains dl) = false := by
      cases hqi : q.data_level with
      | none => rfl
      | some s =>
        simp [Option.any]
        exact hdl s hqi
    have hc5 : q.start_date.any (fun d => !is_valid_date d) = false := by
      cases hqi : q.start_date with
      | none => rfl
      | some s => simp [Option.any, hsd s hqi]
    have hc6 : q.end_date.any (fun d => !is_valid_date d) = false := by
      cases hqi : q.end_date with
      | none => rfl
      | some s => simp [Option.any, hed s hqi]
    have hc7 : q.version.any (fun v => !is_valid_version v) = false := by
      rw [hv]
      decide
    have hc8 : q.repointing.any (fun r => !is_valid_repointing r) = false := by
      cases hqi : q.repointing with
      | none => rfl
      | some s => simp [Option.any, hrep s hqi]
    have hc9 : q.extension.any (fun e => !VALID_FILE_EXTENSION.contains e) = false := by
      cases hqi : q.extension with
      | none => rfl
      | some s =>
        simp [Option.any]
        exact hext s hqi
    have hnums : ∀ r ∈ resp, (versionNumOf r.version).isSome = true := by
      intro r hr
      obtain ⟨n, hn⟩ := versionShape_numOf r.version (hshape r hr)
      simp [hn]
    have htrav := traverseOpt_isSome (fun r => versionNumOf r.version) resp hnums
    refine ⟨?_, ?_, ?_⟩
    · unfold query
      rw [if_neg hc1, if_neg hne, if_neg (by rw [hc3]; simp), if_neg (by rw [hc4]; simp),
          if_neg (by rw [hc5]; simp), if_neg (by rw [hc6]; simp), if_neg (by rw [hc7]; simp),
          if_neg (by rw [hc8]; simp), if_neg (by rw [hc9]; simp)]
      by_cases hre : resp = []
      · subst hre
        rw [if_neg (by simp)]
        simp
      · rw [if_pos ⟨hv, hre⟩, htrav]
        rfl
    · intro r hr n hn
      have hmemn : n ∈ resp.filterMap (fun r => versionNumOf r.version) :=
        List.mem_filterMap.mpr ⟨r, hr, hn⟩
      rw [maxVersionNum_def]
      exact (le_foldl_max _ 0).2 n hmemn
    · intro hrne
      rcases foldl_max_mem (resp.filterMap (fun r => versionNumOf r.version)) 0 with h0 | hm
      · cases resp with
        | nil => exact absurd rfl hrne
        | cons r0 t =>
          obtain ⟨n0, hn0⟩ := versionShape_numOf r0.version (hshape r0 (by simp))
          have hmem0 : n0 ∈ (r0 :: t).filterMap (fun r => versionNumOf r.version) :=
            List.mem_filterMap.mpr ⟨r0, by simp, hn0⟩
          have hle := (le_foldl_max _ 0).2 n0 hmem0
          have hmz : maxVersionNum (r0 :: t) = 0 := by
            rw [maxVersionNum_def]
            exact h0
          refine ⟨r0, by simp, ?_⟩
          rw [hmz, hn0]
          have : n0 = 0 := by
            rw [maxVersionNum_def] at hmz
            omega
          rw [this]
      · obtain ⟨r, hr, hfr⟩ := List.mem_filterMap.mp hm
        refine ⟨r, hr, ?_⟩
        rw [maxVersionNum_def]
        exact hfr

/-- C8 witness: instrument mag with version latest over a response carrying
v001, v003, v002 — the query post-filters to exactly the maximal-version
records. -/
theorem C8_witness :
    query ⟨some (str "mag"), none, none, none, none, none, some (str "latest"), none⟩
        [⟨str "v001", str "a"⟩, ⟨str "v003", str "b"⟩, ⟨str "v002", str "c"⟩]
      = Except.ok ([⟨str "v001", str "a"⟩, ⟨str "v003", str "b"⟩,
          ⟨str "v002", str "c"⟩].filter
            (fun r => versionNumOf r.version == some (maxVersionNum
              [⟨str "v001", str "a"⟩, ⟨str "v003", str "b"⟩,
               ⟨str "v002", str "c"⟩]))) :=
  ((C8_latest_version_query
      ⟨some (str "mag"), none, none, none, none, none, some (str "latest"), none⟩
      [⟨str "v001", str "a"⟩, ⟨str "v003", str "b"⟩, ⟨str "v002", str "c"⟩] rfl).2.2
    (by decide)
    (by intro s hs
        injection hs with h
        rw [← h]
        decide)
    (by intro s hs
        exact Option.noConfusion hs)
    (by intro s hs
        exact Option.noConfusion hs)
    (by intro s hs
        exact Option.noConfusion hs)
    (by intro s hs
        exact Option.noConfusion hs)
    (by intro s hs
        exact Option.noConfusion hs)
    (by decide)).1
